import Mathlib

/-!
Verification of the Wikipedia dump extractor
(`wiki-extractor/extract_wiki_titles.py`).

The development shallowly embeds the routines the claims are about:

* `is_valid_article` — the page filter (source lines 82-120);
* `sStep` / `sRun` — the structured, event-driven extraction loop built on
  `xml.etree.ElementTree.iterparse` (source lines 277-322); XML tags are
  modelled by the `Tag` inductive (the source compares tags with
  `endswith`, which serves to strip XML-namespace prefixes such as
  `\x7bhttp://...\x7dpage`; the local tag name is what matters);
* `fStep` / `fRun` — the line-oriented fallback loop (source lines 343-405),
  working on lines represented as `List Char`, with Python's `in` and
  `str.find` modelled by `containsSub` and `findIdx?`;
* `serializeArticle` — the JSONL output line `json.dumps(article,
  ensure_ascii=False)` (source lines 410-414), together with a genuine JSON
  parser `parseArticleLine` used to state the round-trip property;
* `download_dump` — the 404-handling wrapper around the bulk download
  (source lines 41-80); the network call itself is external I/O and is
  modelled by its outcome.

A well-formed dump is modelled by `PageData`; `pageEvents` renders a page as
the event sequence `iterparse` would deliver for it and `pageLines` renders
the same page as the raw dump lines (with XML character escaping applied to
field contents, as a real dump file would contain).
-/

/-- Output record of the extractor: one JSONL object with keys `id`,
`title` and, when captured, `text`. -/
structure Article where
  id : String
  title : String
  text : Option String
deriving DecidableEq, Repr

/-- The exact exclusion set of `is_valid_article` (source lines 106-112). -/
def excluded_namespaces : List String :=
  ["Template", "Category", "File", "Image", "Help", "Wikipedia",
   "Portal", "Book", "Draft", "User", "MediaWiki", "Module",
   "Media", "Special", "Talk", "User talk", "Wikipedia talk",
   "File talk", "Template talk", "Category talk", "Help talk",
   "Portal talk", "Book talk", "Draft talk", "Module talk"]

/-- Text before the first colon: models `title.split(':', 1)[0]`. -/
def namespaceOf (title : String) : String :=
  String.mk (title.toList.takeWhile (fun c => c != ':'))

/-- List version of Python's prefix test, used to model `str.find`,
`in` and `str.endswith` on strings seen as character lists. -/
def isPrefixL : List Char → List Char → Bool
  | [], _ => true
  | _ :: _, [] => false
  | a :: asx, b :: bs => a == b && isPrefixL asx bs

/-- Models Python's `s.endswith(suffix)`. -/
def strEndsWith (s suffix : String) : Bool :=
  isPrefixL suffix.toList.reverse s.toList.reverse

/-- Embedding of `is_valid_article` (source lines 82-120): reject redirects,
titles whose namespace (the text before the first colon, when a colon is
present) is in `excluded_namespaces`, and — when `filter_disambiguation`
is set — titles ending in `(disambiguation)`. -/
def is_valid_article (title : String) (is_redirect : Bool)
    (filter_disambiguation : Bool) : Bool :=
  if is_redirect then false
  else if title.toList.contains ':' &&
      excluded_namespaces.contains (namespaceOf title) then false
  else if filter_disambiguation && strEndsWith title "(disambiguation)" then
    false
  else true

/-- Configuration surface of `extract_titles_only` relevant to the parsing
loops: `limit` (`None` in Python is `none` here), `filter_disambiguation`
and `include_text`. -/
structure Cfg where
  limit : Option Nat
  filter_disambiguation : Bool
  include_text : Bool
deriving DecidableEq

/-- Models Python's `limit and len(articles) >= limit` (source lines 314 and
344): a limit of `0` is falsy and never triggers. -/
def limitHit (cfg : Cfg) (n : Nat) : Bool :=
  match cfg.limit with
  | none => false
  | some k => (k != 0) && decide (k ≤ n)

/-- Local names of the XML tags the structured loop inspects; every other
tag is `other`. -/
inductive Tag where
  | page | revision | redirect | title | id | text | other
deriving DecidableEq, Repr

/-- One `iterparse` event: a start tag, or an end tag together with the
element's accumulated text content (`elem.text`, `none` for an empty
element). -/
inductive Event where
  | start (t : Tag)
  | close (t : Tag) (txt : Option String)
deriving DecidableEq, Repr

/-- Mutable state of the structured loop (source lines 258-262): the
`current_page` dict is modelled by the three `current_*` options (a key is
present iff the option is `some`). -/
structure SState where
  articles : List Article
  current_title : Option String
  current_id : Option String
  current_text : Option String
  in_revision : Bool
  in_text : Bool
  is_redirect : Bool
deriving DecidableEq, Repr

/-- Fresh loop state carrying an already-accumulated output list. -/
def initS (arts : List Article) : SState :=
  { articles := arts, current_title := none, current_id := none,
    current_text := none, in_revision := false, in_text := false,
    is_redirect := false }

/-- The end-of-page reset block (source lines 317-320). -/
def resetPage (st : SState) : SState :=
  { st with current_title := none, current_id := none, current_text := none,
            in_revision := false, in_text := false, is_redirect := false }

/-- One iteration of the structured loop body (source lines 278-322).
The returned flag is `true` exactly when the Python `break` fires. -/
def sStep (cfg : Cfg) (st : SState) : Event → SState × Bool
  | .start .page =>
      ({ st with current_title := none, current_id := none,
                 current_text := none, is_redirect := false }, false)
  | .start .revision => ({ st with in_revision := true }, false)
  | .start .redirect => ({ st with is_redirect := true }, false)
  | .start .title => (st, false)
  | .start .id => (st, false)
  | .start .text => (st, false)
  | .start .other => (st, false)
  | .close .title txt =>
      (if !st.in_revision then
        { st with current_title := some (txt.getD "") }
      else st, false)
  | .close .id txt =>
      (if !st.in_revision && st.current_id.isNone then
        { st with current_id := some (txt.getD "") }
      else st, false)
  | .close .text txt =>
      (if cfg.include_text && st.in_revision then
        let text := txt.getD ""
        { st with current_text := if text != "" then some text
                                  else st.current_text,
                  in_text := false }
      else st, false)
  | .close .revision _ => ({ st with in_revision := false }, false)
  | .close .redirect _ => (st, false)
  | .close .other _ => (st, false)
  | .close .page _ =>
      let title := st.current_title.getD ""
      let page_id := st.current_id.getD ""
      if (title != "") && (page_id != "") &&
          is_valid_article title st.is_redirect cfg.filter_disambiguation then
        let article : Article :=
          { id := page_id, title := title,
            text := if cfg.include_text && st.current_text.isSome then
                      st.current_text
                    else none }
        let st1 := { st with articles := st.articles ++ [article] }
        if limitHit cfg st1.articles.length then (st1, true)
        else (resetPage st1, false)
      else (resetPage st, false)

/-- The structured extraction loop (source lines 277-322): fold `sStep`
over the event stream, returning the accumulated articles; a `true` stop
flag is the `break`, abandoning the rest of the stream. -/
def sRun (cfg : Cfg) : SState → List Event → List Article
  | st, [] => st.articles
  | st, e :: es =>
    match sStep cfg st e with
    | (st1, true) => st1.articles
    | (st1, false) => sRun cfg st1 es

/-- Content of one `<revision>` element of a well-formed dump page: the
revision id and the optional `<text>` body. -/
structure RevData where
  rid : String
  rtext : Option String
deriving DecidableEq, Repr

/-- One well-formed dump page: page id, title, whether a `<redirect>`
marker is present, and the single revision. -/
structure PageData where
  pid : String
  ptitle : String
  redirect : Bool
  rev : RevData
deriving DecidableEq, Repr

/-- The event sequence `iterparse` delivers for one well-formed page. -/
def pageEvents (p : PageData) : List Event :=
  [.start .page, .start .title, .close .title (some p.ptitle),
   .start .id, .close .id (some p.pid)]
  ++ (if p.redirect then [.start .redirect, .close .redirect none] else [])
  ++ [.start .revision, .start .id, .close .id (some p.rev.rid)]
  ++ (match p.rev.rtext with
      | some t => [.start .text, .close .text (some t)]
      | none => [])
  ++ [.close .revision none, .close .page none]

/-- Event stream of a whole dump. -/
def pagesToEvents (ps : List PageData) : List Event :=
  (ps.map pageEvents).flatten

/-- The revision text the structured loop retains for a page: only with
`include_text`, and only when non-empty (`if text:` on source line 296). -/
def capturedText (cfg : Cfg) (p : PageData) : Option String :=
  if cfg.include_text then
    match p.rev.rtext with
    | some t => if t != "" then some t else none
    | none => none
  else none

/-- The emission test at `</page>` (source line 305): truthy title and id,
and `is_valid_article` passes. -/
def emitCond (cfg : Cfg) (p : PageData) : Bool :=
  (p.ptitle != "") && (p.pid != "") &&
    is_valid_article p.ptitle p.redirect cfg.filter_disambiguation

/-- The article (if any) the extractor emits for one well-formed page. -/
def emitOne (cfg : Cfg) (p : PageData) : Option Article :=
  if emitCond cfg p then
    some { id := p.pid, title := p.ptitle,
           text := if cfg.include_text && (capturedText cfg p).isSome then
                     capturedText cfg p
                   else none }
  else none

example : is_valid_article "Cat" false true = true := by decide
example : is_valid_article "Category:Cats" false true = false := by decide
example : is_valid_article "Dog (disambiguation)" false true = false := by decide
example : is_valid_article "Dog (disambiguation)" false false = true := by decide
example : is_valid_article "Kitty" true true = false := by decide
example : is_valid_article "Bash: A Tale" false true = true := by decide
example : is_valid_article "MediaWiki talk:Spam" false true = true := by decide
example :
    sRun ⟨none, true, false⟩ (initS [])
      (pagesToEvents [⟨"42", "Example", false, ⟨"9001", none⟩⟩]) =
    [{ id := "42", title := "Example", text := none }] := by decide
example :
    sRun ⟨none, true, true⟩ (initS [])
      (pagesToEvents [⟨"42", "Example", false, ⟨"9001", some "body"⟩⟩]) =
    [{ id := "42", title := "Example", text := some "body" }] := by decide
example :
    sRun ⟨some 1, true, false⟩ (initS [])
      (pagesToEvents [⟨"1", "A", false, ⟨"9", none⟩⟩,
                      ⟨"2", "B", false, ⟨"9", none⟩⟩]) =
    [{ id := "1", title := "A", text := none }] := by decide

lemma sRun_page (cfg : Cfg) (arts : List Article) (p : PageData)
    (rest : List Event) :
    sRun cfg (initS arts) (pageEvents p ++ rest) =
      match emitOne cfg p with
      | none => sRun cfg (initS arts) rest
      | some a =>
          if limitHit cfg (arts.length + 1) then arts ++ [a]
          else sRun cfg (initS (arts ++ [a])) rest := by
  cases hr : p.redirect <;> cases ht : p.rev.rtext <;>
    cases hic : cfg.include_text <;>
      simp [pageEvents, hr, ht, hic, sRun, sStep, initS, resetPage,
            emitOne, emitCond, capturedText] <;>
      split_ifs <;> simp [sRun]

/-- Truncation the `limit` parameter imposes on the remaining output, given
`already` articles have been accumulated (`0` and `none` impose none). -/
def takeLim (cfg : Cfg) (already : Nat) (l : List Article) : List Article :=
  match cfg.limit with
  | none => l
  | some k => if k = 0 then l else l.take (k - already)

lemma sRun_pages (cfg : Cfg) : ∀ (ps : List PageData) (arts : List Article),
    limitHit cfg arts.length = false →
    sRun cfg (initS arts) (pagesToEvents ps) =
      arts ++ takeLim cfg arts.length (ps.filterMap (emitOne cfg)) := by
  intro ps
  induction ps with
  | nil =>
    intro arts _
    cases hk : cfg.limit <;> simp [pagesToEvents, sRun, initS, takeLim, hk]
  | cons p ps ih =>
    intro arts h
    have hsplit : pagesToEvents (p :: ps) = pageEvents p ++ pagesToEvents ps := by
      simp [pagesToEvents]
    rw [hsplit, sRun_page]
    cases he : emitOne cfg p with
    | none => simp [ih arts h, List.filterMap_cons, he]
    | some a =>
      simp only [List.filterMap_cons, he]
      cases hl : limitHit cfg (arts.length + 1) with
      | true =>
        cases hk : cfg.limit with
        | none => simp [limitHit, hk] at hl
        | some k =>
          have hfact : ((k != 0) && decide (k ≤ arts.length)) = false := by
            simpa [limitHit, hk] using h
          have hlfact : k ≠ 0 ∧ k ≤ arts.length + 1 := by
            have := hl
            simp only [limitHit, hk, Bool.and_eq_true, bne_iff_ne, ne_eq,
              decide_eq_true_eq] at this
            exact this
          have hk1 : k = arts.length + 1 := by
            rcases Bool.and_eq_false_iff.mp hfact with h1 | h2
            · exact absurd (by simpa using h1) hlfact.1
            · have := of_decide_eq_false h2
              omega
          simp [takeLim, hk, hk1]
      | false =>
        have h' : limitHit cfg (arts.length + 1) = false := hl
        have harts : (arts ++ [a]).length = arts.length + 1 := by simp
        rw [ih (arts ++ [a]) (by rw [harts]; exact h')]
        rw [harts, List.append_assoc]
        cases hk : cfg.limit with
        | none => simp [takeLim, hk]
        | some k =>
          simp only [limitHit, hk, Bool.and_eq_true, bne_iff_ne, ne_eq,
            decide_eq_true_eq] at h hl
          by_cases hk0 : k = 0
          · simp [takeLim, hk, hk0]
          · have hge : arts.length + 2 ≤ k := by
              rcases Bool.and_eq_false_iff.mp hl with h1 | h2
              · exact absurd (by simpa using h1) hk0
              · have := of_decide_eq_false h2
                omega
            have : k - arts.length = (k - (arts.length + 1)) + 1 := by omega
            simp [takeLim, hk, hk0, this, List.take_succ_cons]

lemma is_valid_article_eq_true (title : String) (ir fd : Bool) :
    is_valid_article title ir fd = true ↔
      ir = false
      ∧ (title.toList.contains ':' = true →
           excluded_namespaces.contains (namespaceOf title) = false)
      ∧ (fd = true → strEndsWith title "(disambiguation)" = false) := by
  unfold is_valid_article
  cases ir
  · by_cases h1 : title.toList.contains ':' <;>
      by_cases h2 : excluded_namespaces.contains (namespaceOf title) <;>
        by_cases h3 : fd <;>
          by_cases h4 : strEndsWith title "(disambiguation)" <;>
            simp [h1, h2, h3, h4] <;> tauto
  · simp

lemma emitOne_isSome (cfg : Cfg) (p : PageData) :
    (emitOne cfg p).isSome = emitCond cfg p := by
  unfold emitOne
  split <;> simp_all

/-- C1: over any well-formed dump, an Article is emitted for a page if and
only if its id and title are non-empty, it is not a redirect, its namespace
prefix (when a colon is present) is not excluded, and — when
`filter_disambiguation` is set — its title does not end in
`(disambiguation)`; with `filter_disambiguation` off the last condition
vanishes, so such titles are emitted when the other conditions hold. -/
theorem c1_article_emitted_iff_valid (cfg : Cfg) (ps : List PageData)
    (hlim : cfg.limit = none) :
    sRun cfg (initS []) (pagesToEvents ps) = ps.filterMap (emitOne cfg)
    ∧ ∀ p : PageData,
        (emitOne cfg p).isSome = true ↔
          (p.pid ≠ "" ∧ p.ptitle ≠ "" ∧ p.redirect = false
           ∧ (p.ptitle.toList.contains ':' = true →
                excluded_namespaces.contains (namespaceOf p.ptitle) = false)
           ∧ (cfg.filter_disambiguation = true →
                strEndsWith p.ptitle "(disambiguation)" = false)) := by
  constructor
  · have h0 : limitHit cfg ([] : List Article).length = false := by
      simp [limitHit, hlim]
    rw [sRun_pages cfg ps [] h0]
    simp [takeLim, hlim]
  · intro p
    rw [emitOne_isSome]
    unfold emitCond
    simp only [Bool.and_eq_true, bne_iff_ne, ne_eq,
      is_valid_article_eq_true]
    tauto

/-- Witness for C1: the spec's own scenario — pages `Cat`,
`Category:Cats`, `Dog (disambiguation)` and a redirect `Kitty` yield only
`Cat` under default settings. -/
theorem c1_witness :
    sRun ⟨none, true, false⟩ (initS [])
      (pagesToEvents
        [⟨"1", "Cat", false, ⟨"9", none⟩⟩,
         ⟨"2", "Category:Cats", false, ⟨"9", none⟩⟩,
         ⟨"3", "Dog (disambiguation)", false, ⟨"9", none⟩⟩,
         ⟨"4", "Kitty", true, ⟨"9", none⟩⟩]) =
      [{ id := "1", title := "Cat", text := none }] := by
  rw [(c1_article_emitted_iff_valid ⟨none, true, false⟩
    [⟨"1", "Cat", false, ⟨"9", none⟩⟩,
     ⟨"2", "Category:Cats", false, ⟨"9", none⟩⟩,
     ⟨"3", "Dog (disambiguation)", false, ⟨"9", none⟩⟩,
     ⟨"4", "Kitty", true, ⟨"9", none⟩⟩] rfl).1]
  decide

lemma mk_toList (s : String) : String.mk s.toList = s := rfl

lemma takeWhile_append_stop {α : Type} (p : α → Bool) (l₁ l₂ : List α)
    (h : ∀ c ∈ l₁, p c = true) (x : α) (hx : p x = false) :
    (l₁ ++ x :: l₂).takeWhile p = l₁ := by
  induction l₁ with
  | nil => simp [List.takeWhile, hx]
  | cons a l ih =>
    have hrec := ih fun c hc => h c (List.mem_cons_of_mem a hc)
    have ha := h a (List.mem_cons_self a l)
    simp [List.takeWhile_cons, ha, hrec]

/-- C2 counterexample: `MediaWiki talk` is the talk variant of the listed
namespace `MediaWiki`, yet `is_valid_article` accepts
`MediaWiki talk:Spam` — the claim says every talk variant is rejected. -/
theorem c2_counterexample :
    namespaceOf "MediaWiki talk:Spam" = "MediaWiki talk"
    ∧ excluded_namespaces.contains "MediaWiki" = true
    ∧ is_valid_article "MediaWiki talk:Spam" false true = true := by
  refine ⟨by decide, by decide, by decide⟩

/-- C2 (amended): titles whose prefix before the first colon is one of the
25 strings in `excluded_namespaces` (which includes only ten talk
variants: User, Wikipedia, File, Template, Category, Help, Portal, Book,
Draft and Module talk) are always rejected; a title containing a colon
whose prefix is not in that set is not rejected on namespace grounds. -/
theorem c2_namespace_rejection :
    (∀ ns ∈ excluded_namespaces, ∀ (rest : String) (ir fd : Bool),
        is_valid_article (ns ++ ":" ++ rest) ir fd = false)
    ∧ (∀ (title : String) (fd : Bool),
        title.toList.contains ':' = true →
        excluded_namespaces.contains (namespaceOf title) = false →
        (fd = true → strEndsWith title "(disambiguation)" = false) →
        is_valid_article title false fd = true) := by
  constructor
  · intro ns hns rest ir fd
    have hcolon : ':' ∉ ns.toList := by
      have hall : ∀ s ∈ excluded_namespaces, ':' ∉ s.toList := by decide
      exact hall ns hns
    have hlist : (ns ++ ":" ++ rest).toList =
        ns.toList ++ ':' :: rest.toList := by
      simp [String.toList, String.data_append]
    have hnsOf : namespaceOf (ns ++ ":" ++ rest) = ns := by
      unfold namespaceOf
      rw [hlist, takeWhile_append_stop _ _ _
        (fun c hc => by
          simp only [bne_iff_ne, ne_eq, decide_eq_true_eq]
          intro he; exact hcolon (he ▸ hc))
        ':' (by simp)]
      exact mk_toList ns
    have hcont : ':' ∈ (ns ++ ":" ++ rest).data := by
      have : (ns ++ ":" ++ rest).data = ns.toList ++ ':' :: rest.toList := hlist
      rw [this]
      simp
    have hmem : namespaceOf (ns ++ ":" ++ rest) ∈ excluded_namespaces := by
      rw [hnsOf]; exact hns
    unfold is_valid_article
    cases ir <;> simp [hcont, hmem]
  · intro title fd hc hmem hdis
    have hmem' : namespaceOf title ∉ excluded_namespaces := by
      simpa using hmem
    unfold is_valid_article
    cases hfd : fd with
    | false => simp [hmem']
    | true => simp [hmem', hdis hfd]

/-- Witness for C2's amended theorem: `Template:Infobox` is rejected,
`Bash: A Tale` is accepted. -/
theorem c2_witness :
    is_valid_article ("Template" ++ ":" ++ "Infobox") false true = false
    ∧ is_valid_article "Bash: A Tale" false true = true :=
  ⟨c2_namespace_rejection.1 "Template" (by decide) "Infobox" false true,
   c2_namespace_rejection.2 "Bash: A Tale" true (by decide) (by decide)
     (fun _ => by decide)⟩

/-- State reached by the structured loop body over a sequence of events
(ignoring the stop flag, which only an end-of-page event can raise). -/
def sFold (cfg : Cfg) (st : SState) : List Event → SState
  | [] => st
  | e :: es => sFold cfg (sStep cfg st e).1 es

/-- Events that open or close a `<page>` element. -/
def isPageEvent : Event → Bool
  | .start .page => true
  | .close .page _ => true
  | _ => false

/-- Specification-side scan: the value of the first `<id>` element that
closes while not inside a `<revision>` scope (as the loop stores it,
empty-element text read as `""`). -/
def scanFirstId : Bool → List Event → Option String
  | _, [] => none
  | inRev, e :: es =>
    match e with
    | .start .revision => scanFirstId true es
    | .close .revision _ => scanFirstId false es
    | .close .id txt =>
        if inRev then scanFirstId inRev es else some (txt.getD "")
    | _ => scanFirstId inRev es

lemma sFold_current_id (cfg : Cfg) :
    ∀ (es : List Event) (st : SState),
      (∀ e ∈ es, isPageEvent e = false) →
      (sFold cfg st es).current_id =
        match st.current_id with
        | some v => some v
        | none => scanFirstId st.in_revision es := by
  intro es
  induction es with
  | nil =>
    intro st _
    cases h : st.current_id <;> simp [sFold, scanFirstId, h]
  | cons e es ih =>
    intro st hfree
    have hfree' : ∀ x ∈ es, isPageEvent x = false :=
      fun x hx => hfree x (by simp [hx])
    have he : isPageEvent e = false := hfree e (by simp)
    cases e with
    | start t =>
      cases t <;>
        simp_all [sFold, sStep, scanFirstId, isPageEvent, ih _ hfree']
    | close t txt =>
      cases t with
      | id =>
        by_cases hrev : st.in_revision <;>
          cases hid : st.current_id <;>
            simp_all [sFold, sStep, scanFirstId, ih _ hfree']
      | title =>
        by_cases hrev : st.in_revision <;>
          simp_all [sFold, sStep, scanFirstId, ih _ hfree']
      | text =>
        by_cases h1 : cfg.include_text <;> by_cases h2 : st.in_revision <;>
          simp_all [sFold, sStep, scanFirstId, ih _ hfree']
      | revision => simp_all [sFold, sStep, scanFirstId, ih _ hfree']
      | redirect => simp_all [sFold, sStep, scanFirstId, ih _ hfree']
      | page => simp_all [isPageEvent]
      | other => simp_all [sFold, sStep, scanFirstId, ih _ hfree']

/-- C4: over any page-internal event sequence, the id the loop records is
the value of the first `<id>` element closing outside a `<revision>`
scope; ids closing inside a revision never overwrite it. Concretely, a
page whose first id outside the revision is `"42"` with a nested revision
id `"9001"` is emitted with id `"42"`. -/
theorem c4_page_id_is_first_outside_revision (cfg : Cfg) (es : List Event)
    (hfree : ∀ e ∈ es, isPageEvent e = false) :
    (sFold cfg (initS []) es).current_id = scanFirstId false es
    ∧ sRun ⟨none, true, false⟩ (initS [])
        (pagesToEvents [⟨"42", "Example", false, ⟨"9001", none⟩⟩]) =
      [{ id := "42", title := "Example", text := none }] := by
  constructor
  · rw [sFold_current_id cfg es (initS []) hfree]
    simp [initS]
  · decide

/-- Witness for C4 at a concrete in-page event sequence: the id `"42"`
outside the revision wins over the revision's `"9001"`. -/
theorem c4_witness :
    (sFold ⟨none, true, false⟩ (initS [])
      [.start .id, .close .id (some "42"), .start .revision,
       .start .id, .close .id (some "9001"), .close .revision none]).current_id
    = some "42" :=
  ((c4_page_id_is_first_outside_revision ⟨none, true, false⟩
      [.start .id, .close .id (some "42"), .start .revision,
       .start .id, .close .id (some "9001"), .close .revision none]
      (by decide)).1).trans (by decide)

lemma sRun_pages_stop (cfg : Cfg) (n : Nat) (hk : cfg.limit = some n)
    (hn : 0 < n) :
    ∀ (ps : List PageData) (arts : List Article) (extra : List Event),
      limitHit cfg arts.length = false →
      n ≤ arts.length + (ps.filterMap (emitOne cfg)).length →
      sRun cfg (initS arts) (pagesToEvents ps ++ extra) =
        arts ++ (ps.filterMap (emitOne cfg)).take (n - arts.length) := by
  intro ps
  induction ps with
  | nil =>
    intro arts extra h hle
    exfalso
    have hP : ¬n = 0 → arts.length < n := by simpa [limitHit, hk] using h
    simp only [List.filterMap_nil, List.length_nil, Nat.add_zero] at hle
    have := hP (by omega)
    omega
  | cons p ps ih =>
    intro arts extra h hle
    have hP : ¬n = 0 → arts.length < n := by simpa [limitHit, hk] using h
    have hsplit : pagesToEvents (p :: ps) ++ extra =
        pageEvents p ++ (pagesToEvents ps ++ extra) := by
      simp [pagesToEvents]
    rw [hsplit, sRun_page]
    cases he : emitOne cfg p with
    | none =>
      rw [ih arts extra h (by simpa [List.filterMap_cons, he] using hle)]
      simp [List.filterMap_cons, he]
    | some a =>
      simp only [List.filterMap_cons, he]
      cases hl : limitHit cfg (arts.length + 1) with
      | true =>
        have hlfact : n ≠ 0 ∧ n ≤ arts.length + 1 := by
          simpa [limitHit, hk] using hl
        have hk1 : n = arts.length + 1 := by
          have := hP (by omega)
          omega
        have hsub : n - arts.length = 1 := by omega
        simp [hsub]
      | false =>
        have hQ : ¬n = 0 → arts.length + 1 < n := by
          simpa [limitHit, hk] using hl
        have hgt : arts.length + 1 < n := hQ (by omega)
        have harts : (arts ++ [a]).length = arts.length + 1 := by simp
        have hle' : n ≤ (arts ++ [a]).length +
            (ps.filterMap (emitOne cfg)).length := by
          rw [harts]
          simp only [List.filterMap_cons, he, List.length_cons] at hle
          omega
        rw [ih (arts ++ [a]) extra (by rw [harts]; exact hl) hle']
        rw [harts, List.append_assoc]
        have hsub : n - arts.length = (n - (arts.length + 1)) + 1 := by omega
        simp [hsub, List.take_succ_cons]

/-- C5: with a positive limit `n`, the structured loop outputs exactly
`min n totalValidArticles` records, and once `n` articles are reachable
within the stream it never consumes any further events: appending any
trailing stream leaves the output unchanged. -/
theorem c5_limit_bounds_output (cfg : Cfg) (n : Nat) (ps : List PageData)
    (extra : List Event) (hk : cfg.limit = some n) (hn : 0 < n) :
    (sRun cfg (initS []) (pagesToEvents ps)).length =
      min n (ps.filterMap (emitOne cfg)).length
    ∧ (n ≤ (ps.filterMap (emitOne cfg)).length →
        sRun cfg (initS []) (pagesToEvents ps ++ extra) =
          sRun cfg (initS []) (pagesToEvents ps)) := by
  have h0 : limitHit cfg ([] : List Article).length = false := by
    simp [limitHit, hk]
  constructor
  · rw [sRun_pages cfg ps [] h0]
    simp only [takeLim, hk, List.nil_append, List.length_nil]
    rw [if_neg (by omega)]
    simp [List.length_take]
  · intro hle
    rw [sRun_pages_stop cfg n hk hn ps [] extra h0 (by simpa using hle)]
    have := sRun_pages_stop cfg n hk hn ps [] [] h0 (by simpa using hle)
    rw [List.append_nil] at this
    rw [this]

/-- Witness for C5: limit 1 on a two-valid-page dump yields one record and
ignores arbitrary trailing events. -/
theorem c5_witness :
    (sRun ⟨some 1, true, false⟩ (initS [])
      (pagesToEvents [⟨"1", "A", false, ⟨"9", none⟩⟩,
                      ⟨"2", "B", false, ⟨"9", none⟩⟩])).length = 1
    ∧ sRun ⟨some 1, true, false⟩ (initS [])
        (pagesToEvents [⟨"1", "A", false, ⟨"9", none⟩⟩,
                        ⟨"2", "B", false, ⟨"9", none⟩⟩]
         ++ [.start .page, .close .title (some "junk")]) =
      sRun ⟨some 1, true, false⟩ (initS [])
        (pagesToEvents [⟨"1", "A", false, ⟨"9", none⟩⟩,
                        ⟨"2", "B", false, ⟨"9", none⟩⟩]) := by
  have h := c5_limit_bounds_output ⟨some 1, true, false⟩ 1
    [⟨"1", "A", false, ⟨"9", none⟩⟩, ⟨"2", "B", false, ⟨"9", none⟩⟩]
    [.start .page, .close .title (some "junk")] rfl (by decide)
  exact ⟨h.1.trans (by decide), h.2 (by decide)⟩

/-- C10: with text extraction enabled, the emitted Article for a page
carries a `text` field exactly when the revision text is a non-empty
string; an empty `<text>` element yields an Article with no text key. -/
theorem c10_text_key_iff_nonempty (cfg : Cfg) (p : PageData) (a : Article)
    (hit : cfg.include_text = true) (hlim : cfg.limit = none)
    (h : sRun cfg (initS []) (pagesToEvents [p]) = [a]) :
    a.text = (match p.rev.rtext with
              | some t => if t = "" then none else some t
              | none => none) := by
  have h0 : limitHit cfg ([] : List Article).length = false := by
    simp [limitHit, hlim]
  rw [sRun_pages cfg [p] [] h0] at h
  simp only [takeLim, hlim, List.nil_append, List.filterMap_cons,
    List.filterMap_nil] at h
  cases he : emitOne cfg p with
  | none => rw [he] at h; simp at h
  | some b =>
    rw [he] at h
    simp at h
    unfold emitOne at he
    by_cases hc : emitCond cfg p = true
    · rw [if_pos hc] at he
      have hb := Option.some.inj he
      rw [← h, ← hb]
      simp only [capturedText, hit, Bool.true_and, if_true]
      cases hrt : p.rev.rtext with
      | none => simp [hrt]
      | some t => by_cases ht : t = "" <;> simp [hrt, ht]
    · rw [if_neg hc] at he
      exact absurd he (by simp)

/-- Witness for C10: a page whose revision text is the empty string is
emitted without a text key. -/
theorem c10_witness :
    ({ id := "7", title := "T", text := none } : Article).text =
      (match (⟨"7", "T", false, ⟨"1", some ""⟩⟩ : PageData).rev.rtext with
       | some t => if t = "" then none else some t
       | none => none) :=
  c10_text_key_iff_nonempty ⟨none, true, true⟩
    ⟨"7", "T", false, ⟨"1", some ""⟩⟩
    { id := "7", title := "T", text := none } rfl rfl (by decide)

/-- Index of the first occurrence of `pat` in `hay`: models Python's
`str.find` (which returns -1, modelled by `none`, when absent). -/
def findIdx? (pat : List Char) : List Char → Option Nat
  | [] => if isPrefixL pat [] then some 0 else none
  | c :: cs =>
    if isPrefixL pat (c :: cs) then some 0
    else (findIdx? pat cs).map (· + 1)

/-- Models Python's `pat in line` substring test. -/
def containsSub (pat line : List Char) : Bool :=
  (findIdx? pat line).isSome

/-- Mutable state of the line-oriented fallback loop (source lines
334-341); the unused `in_title` and `in_id` variables of the source are
assigned once and never read, and are omitted. -/
structure FState where
  articles : List Article
  current_title : Option String
  current_id : Option String
  current_text : Option String
  in_revision : Bool
  in_text : Bool
  is_redirect : Bool
  text_lines : List (List Char)
deriving DecidableEq, Repr

/-- Fresh fallback state carrying an already-accumulated output list. -/
def initF (arts : List Article) : FState :=
  { articles := arts, current_title := none, current_id := none,
    current_text := none, in_revision := false, in_text := false,
    is_redirect := false, text_lines := [] }

/-- The `</page>` handler of the fallback loop (source lines 390-405):
emit when valid, then reset every per-page variable. -/
def fClosePage (cfg : Cfg) (st : FState) : FState :=
  let title := st.current_title.getD ""
  let page_id := st.current_id.getD ""
  let st1 :=
    if (title != "") && (page_id != "") &&
        is_valid_article title st.is_redirect cfg.filter_disambiguation then
      { st with articles := st.articles ++
          [{ id := page_id, title := title,
             text := if cfg.include_text && st.current_text.isSome then
                       st.current_text
                     else none }] }
    else st
  { st1 with current_title := none, current_id := none, current_text := none,
             in_revision := false, in_text := false, is_redirect := false,
             text_lines := [] }

/-- One iteration of the fallback loop body (source lines 347-405): the
`elif` chain over one input line. -/
def fStep (cfg : Cfg) (st : FState) (line : List Char) : FState :=
  if containsSub ['<','r','e','v','i','s','i','o','n','>'] line then
    { st with in_revision := true, in_text := false, text_lines := [] }
  else if containsSub ['<','/','r','e','v','i','s','i','o','n','>'] line then
    let st1 :=
      if cfg.include_text && !st.text_lines.isEmpty then
        { st with current_text := some (String.mk st.text_lines.flatten) }
      else st
    { st1 with in_revision := false, in_text := false }
  else if containsSub ['<','r','e','d','i','r','e','c','t'] line then
    { st with is_redirect := true }
  else if containsSub ['<','t','e','x','t'] line && cfg.include_text &&
      st.in_revision then
    let start := (match findIdx? ['>'] line with
                  | some n => n + 1
                  | none => 0)
    let st1 := { st with in_text := true }
    match findIdx? ['<','/','t','e','x','t','>'] line with
    | some e =>
        if start < e then
          let seg := (line.drop start).take (e - start)
          { st1 with text_lines := st1.text_lines ++ [seg],
                     in_text := false }
        else if start < line.length then
          { st1 with text_lines := st1.text_lines ++ [line.drop start] }
        else st1
    | none =>
        if start < line.length then
          { st1 with text_lines := st1.text_lines ++ [line.drop start] }
        else st1
  else if st.in_text && cfg.include_text then
    match findIdx? ['<','/','t','e','x','t','>'] line with
    | some e =>
        { st with text_lines := st.text_lines ++ [line.take e],
                  in_text := false }
    | none => { st with text_lines := st.text_lines ++ [line] }
  else if containsSub ['<','t','i','t','l','e','>'] line &&
      !st.in_revision then
    match findIdx? ['<','t','i','t','l','e','>'] line with
    | some i =>
        let start := i + 7
        match findIdx? ['<','/','t','i','t','l','e','>'] line with
        | some e =>
            if start < e then
              let seg := (line.drop start).take (e - start)
              { st with current_title := some (String.mk seg) }
            else st
        | none => st
    | none => st
  else if containsSub ['<','i','d','>'] line && !st.in_revision &&
      st.current_id.isNone then
    match findIdx? ['<','i','d','>'] line with
    | some i =>
        let start := i + 4
        match findIdx? ['<','/','i','d','>'] line with
        | some e =>
            if start < e then
              let seg := (line.drop start).take (e - start)
              { st with current_id := some (String.mk seg) }
            else st
        | none => st
    | none => st
  else if containsSub ['<','/','p','a','g','e','>'] line then
    fClosePage cfg st
  else st

/-- The fallback extraction loop (source lines 343-405): the limit check
sits at the top of each iteration. -/
def fRun (cfg : Cfg) : FState → List (List Char) → List Article
  | st, [] => st.articles
  | st, line :: ls =>
    if limitHit cfg st.articles.length then st.articles
    else fRun cfg (fStep cfg st line) ls

/-- XML character escaping a real dump applies to text content: the raw
byte stream holds `&amp;`, `&lt;`, `&gt;` where the parsed text holds
`&`, `<`, `>`. -/
def escapeXml (s : String) : List Char :=
  (s.toList.map (fun c =>
    if c = '&' then ['&','a','m','p',';']
    else if c = '<' then ['&','l','t',';']
    else if c = '>' then ['&','g','t',';']
    else [c])).flatten

/-- The raw dump lines for one well-formed page, one element per line,
matching the event rendering `pageEvents` of the same page. -/
def pageLines (p : PageData) : List (List Char) :=
  [['<','p','a','g','e','>'],
   ['<','t','i','t','l','e','>'] ++ escapeXml p.ptitle
     ++ ['<','/','t','i','t','l','e','>'],
   ['<','i','d','>'] ++ escapeXml p.pid ++ ['<','/','i','d','>']]
  ++ (if p.redirect then [['<','r','e','d','i','r','e','c','t',' ','/','>']]
      else [])
  ++ [['<','r','e','v','i','s','i','o','n','>'],
      ['<','i','d','>'] ++ escapeXml p.rev.rid ++ ['<','/','i','d','>']]
  ++ (match p.rev.rtext with
      | some t => [['<','t','e','x','t','>'] ++ escapeXml t
                    ++ ['<','/','t','e','x','t','>']]
      | none => [])
  ++ [['<','/','r','e','v','i','s','i','o','n','>'],
      ['<','/','p','a','g','e','>']]

/-- Raw line stream of a whole dump. -/
def pagesToLines (ps : List PageData) : List (List Char) :=
  (ps.map pageLines).flatten

example :
    fRun ⟨none, true, false⟩ (initF [])
      (pagesToLines [⟨"42", "Example", false, ⟨"9001", none⟩⟩]) =
    [{ id := "42", title := "Example", text := none }] := by decide
example :
    fRun ⟨none, true, true⟩ (initF [])
      (pagesToLines [⟨"42", "Example", false, ⟨"9001", some "body"⟩⟩]) =
    [{ id := "42", title := "Example", text := some "body" }] := by decide
example :
    fRun ⟨none, true, false⟩ (initF [])
      (pagesToLines [⟨"42", "Kitty", true, ⟨"9001", none⟩⟩]) = [] := by decide

lemma isPrefixL_self_append (p r : List Char) : isPrefixL p (p ++ r) = true := by
  induction p with
  | nil => simp [isPrefixL]
  | cons a q ih => simp [isPrefixL, ih]

lemma findIdx_of_isPrefixL (pat l : List Char)
    (h : isPrefixL pat l = true) : findIdx? pat l = some 0 := by
  cases l <;> simp [findIdx?, h]

lemma findIdx_skip (a : Char) (pt : List Char) :
    ∀ (l₁ l₂ : List Char), a ∉ l₁ →
    findIdx? (a :: pt) (l₁ ++ l₂) =
      (findIdx? (a :: pt) l₂).map (· + l₁.length) := by
  intro l₁
  induction l₁ with
  | nil =>
    intro l₂ _
    simp
  | cons c cs ih =>
    intro l₂ h
    have hne : (a == c) = false := by
      simp only [beq_eq_false_iff_ne, ne_eq]
      intro he
      exact h (by simp [he])
    have hnp : isPrefixL (a :: pt) (c :: (cs ++ l₂)) = false := by
      simp [isPrefixL, hne]
    rw [List.cons_append, findIdx?, if_neg (by simp [hnp]),
      ih l₂ (fun hm => h (by simp [hm]))]
    cases findIdx? (a :: pt) l₂ <;> simp
    omega

lemma findIdx_fieldLine (pt oRest T cRest : List Char)
    (hO : '<' ∉ oRest) (hT : '<' ∉ T) :
    findIdx? ('<' :: pt) ('<' :: (oRest ++ T ++ '<' :: cRest)) =
      if isPrefixL ('<' :: pt) ('<' :: (oRest ++ T ++ '<' :: cRest))
      then some 0
      else (findIdx? ('<' :: pt) ('<' :: cRest)).map
             (· + (1 + (oRest.length + T.length))) := by
  rw [findIdx?]
  split
  · rfl
  · have h1 : '<' ∉ oRest ++ T := by
      intro hm
      rcases List.mem_append.mp hm with h | h
      · exact hO h
      · exact hT h
    have h2 := findIdx_skip '<' pt (oRest ++ T) ('<' :: cRest) h1
    rw [show oRest ++ T ++ '<' :: cRest = (oRest ++ T) ++ ('<' :: cRest) from
      by simp [List.append_assoc]]
    rw [h2]
    cases findIdx? ('<' :: pt) ('<' :: cRest) <;> simp
    omega

lemma fStep_titleLine (cfg : Cfg) (st : FState) (T : List Char)
    (hT : '<' ∉ T) (hrev : st.in_revision = false)
    (hit : st.in_text = false) :
    fStep cfg st (['<','t','i','t','l','e','>'] ++ T
      ++ ['<','/','t','i','t','l','e','>']) =
      if T.isEmpty then st
      else { st with current_title := some (String.mk T) } := by
  have hshape : ['<','t','i','t','l','e','>'] ++ T
      ++ ['<','/','t','i','t','l','e','>'] =
      '<' :: (['t','i','t','l','e','>'] ++ T
        ++ '<' :: ['/','t','i','t','l','e','>']) := by simp
  have c1 : containsSub ['<','r','e','v','i','s','i','o','n','>']
      (['<','t','i','t','l','e','>'] ++ T
        ++ ['<','/','t','i','t','l','e','>']) = false := by
    unfold containsSub
    rw [hshape, findIdx_fieldLine _ _ _ _ (by decide) hT,
        if_neg (by simp [isPrefixL])]
    rw [Option.isSome_map']
    decide
  have c2 : containsSub ['<','/','r','e','v','i','s','i','o','n','>']
      (['<','t','i','t','l','e','>'] ++ T
        ++ ['<','/','t','i','t','l','e','>']) = false := by
    unfold containsSub
    rw [hshape, findIdx_fieldLine _ _ _ _ (by decide) hT,
        if_neg (by simp [isPrefixL])]
    rw [Option.isSome_map']
    decide
  have c3 : containsSub ['<','r','e','d','i','r','e','c','t']
      (['<','t','i','t','l','e','>'] ++ T
        ++ ['<','/','t','i','t','l','e','>']) = false := by
    unfold containsSub
    rw [hshape, findIdx_fieldLine _ _ _ _ (by decide) hT,
        if_neg (by simp [isPrefixL])]
    rw [Option.isSome_map']
    decide
  have c4 : containsSub ['<','t','e','x','t']
      (['<','t','i','t','l','e','>'] ++ T
        ++ ['<','/','t','i','t','l','e','>']) = false := by
    unfold containsSub
    rw [hshape, findIdx_fieldLine _ _ _ _ (by decide) hT,
        if_neg (by simp [isPrefixL])]
    rw [Option.isSome_map']
    decide
  have c6 : containsSub ['<','t','i','t','l','e','>']
      (['<','t','i','t','l','e','>'] ++ T
        ++ ['<','/','t','i','t','l','e','>']) = true := by
    unfold containsSub
    rw [findIdx_of_isPrefixL]
    · rfl
    · have := isPrefixL_self_append ['<','t','i','t','l','e','>']
        (T ++ ['<','/','t','i','t','l','e','>'])
      simpa using this
  have f6 : findIdx? ['<','t','i','t','l','e','>']
      (['<','t','i','t','l','e','>'] ++ T
        ++ ['<','/','t','i','t','l','e','>']) = some 0 := by
    rw [findIdx_of_isPrefixL]
    have := isPrefixL_self_append ['<','t','i','t','l','e','>']
      (T ++ ['<','/','t','i','t','l','e','>'])
    simpa using this
  have f6c : findIdx? ['<','/','t','i','t','l','e','>']
      (['<','t','i','t','l','e','>'] ++ T
        ++ ['<','/','t','i','t','l','e','>']) = some (7 + T.length) := by
    rw [hshape, findIdx_fieldLine _ _ _ _ (by decide) hT,
        if_neg (by simp [isPrefixL]),
        show findIdx? ['<','/','t','i','t','l','e','>']
          ('<' :: ['/','t','i','t','l','e','>']) = some 0 from by decide]
    simp
    omega
  have hdrop : (['<','t','i','t','l','e','>'] ++ T
      ++ ['<','/','t','i','t','l','e','>']).drop (0 + 7) =
      T ++ ['<','/','t','i','t','l','e','>'] := by
    rw [List.append_assoc]
    exact List.drop_left' (by decide)
  unfold fStep
  rw [c1, c2, c3, c4]
  simp only [Bool.false_eq_true, if_false, Bool.false_and, hit, hrev, c6,
    Bool.and_true, Bool.not_false, Bool.true_and, Bool.and_false, if_true,
    f6, f6c]
  by_cases hTe : T.isEmpty
  · have : T = [] := by simpa [List.isEmpty_iff] using hTe
    subst this
    simp
  · have hTne : T ≠ [] := by simpa [List.isEmpty_iff] using hTe
    have hlt : 0 + 7 < 7 + T.length := by
      have : 0 < T.length := List.length_pos.mpr hTne
      omega
    rw [if_pos hlt]
    simp only [hTe, if_false]
    have hseg : ((['<','t','i','t','l','e','>'] ++ T
        ++ ['<','/','t','i','t','l','e','>']).drop (0 + 7)).take
          (7 + T.length - (0 + 7)) = T := by
      rw [hdrop, show 7 + T.length - (0 + 7) = T.length from by omega]
      exact List.take_left' rfl
    rw [hseg]
    simp

lemma fStep_idLine (cfg : Cfg) (st : FState) (T : List Char)
    (hT : '<' ∉ T) (hit : st.in_text = false) :
    fStep cfg st (['<','i','d','>'] ++ T ++ ['<','/','i','d','>']) =
      if st.in_revision then st
      else if st.current_id.isSome then st
      else if T.isEmpty then st
      else { st with current_id := some (String.mk T) } := by
  have hshape : ['<','i','d','>'] ++ T ++ ['<','/','i','d','>'] =
      '<' :: (['i','d','>'] ++ T ++ '<' :: ['/','i','d','>']) := by simp
  have c1 : containsSub ['<','r','e','v','i','s','i','o','n','>']
      (['<','i','d','>'] ++ T ++ ['<','/','i','d','>']) = false := by
    unfold containsSub
    rw [hshape, findIdx_fieldLine _ _ _ _ (by decide) hT,
        if_neg (by simp [isPrefixL])]
    rw [Option.isSome_map']
    decide
  have c2 : containsSub ['<','/','r','e','v','i','s','i','o','n','>']
      (['<','i','d','>'] ++ T ++ ['<','/','i','d','>']) = false := by
    unfold containsSub
    rw [hshape, findIdx_fieldLine _ _ _ _ (by decide) hT,
        if_neg (by simp [isPrefixL])]
    rw [Option.isSome_map']
    decide
  have c3 : containsSub ['<','r','e','d','i','r','e','c','t']
      (['<','i','d','>'] ++ T ++ ['<','/','i','d','>']) = false := by
    unfold containsSub
    rw [hshape, findIdx_fieldLine _ _ _ _ (by decide) hT,
        if_neg (by simp [isPrefixL])]
    rw [Option.isSome_map']
    decide
  have c4 : containsSub ['<','t','e','x','t']
      (['<','i','d','>'] ++ T ++ ['<','/','i','d','>']) = false := by
    unfold containsSub
    rw [hshape, findIdx_fieldLine _ _ _ _ (by decide) hT,
        if_neg (by simp [isPrefixL])]
    rw [Option.isSome_map']
    decide
  have c5 : containsSub ['<','t','i','t','l','e','>']
      (['<','i','d','>'] ++ T ++ ['<','/','i','d','>']) = false := by
    unfold containsSub
    rw [hshape, findIdx_fieldLine _ _ _ _ (by decide) hT,
        if_neg (by simp [isPrefixL])]
    rw [Option.isSome_map']
    decide
  have c7 : containsSub ['<','i','d','>']
      (['<','i','d','>'] ++ T ++ ['<','/','i','d','>']) = true := by
    unfold containsSub
    rw [findIdx_of_isPrefixL]
    · rfl
    · have := isPrefixL_self_append ['<','i','d','>']
        (T ++ ['<','/','i','d','>'])
      simpa using this
  have f7 : findIdx? ['<','i','d','>']
      (['<','i','d','>'] ++ T ++ ['<','/','i','d','>']) = some 0 := by
    rw [findIdx_of_isPrefixL]
    have := isPrefixL_self_append ['<','i','d','>'] (T ++ ['<','/','i','d','>'])
    simpa using this
  have f7c : findIdx? ['<','/','i','d','>']
      (['<','i','d','>'] ++ T ++ ['<','/','i','d','>']) =
      some (4 + T.length) := by
    rw [hshape, findIdx_fieldLine _ _ _ _ (by decide) hT,
        if_neg (by simp [isPrefixL]),
        show findIdx? ['<','/','i','d','>'] ('<' :: ['/','i','d','>']) =
          some 0 from by decide]
    simp
    omega
  have c8 : containsSub ['<','/','p','a','g','e','>']
      (['<','i','d','>'] ++ T ++ ['<','/','i','d','>']) = false := by
    unfold containsSub
    rw [hshape, findIdx_fieldLine _ _ _ _ (by decide) hT,
        if_neg (by simp [isPrefixL])]
    rw [Option.isSome_map']
    decide
  unfold fStep
  rw [c1, c2, c3, c4]
  simp only [Bool.false_eq_true, if_false, Bool.false_and, hit, c5, c7, c8,
    Bool.and_true, Bool.true_and, Bool.and_false, f7, f7c]
  cases hrev : st.in_revision with
  | true => simp
  | false =>
    cases hid : st.current_id with
    | some v => simp [hid]
    | none =>
      simp only [hid, Option.isNone_none, Bool.and_true, Bool.not_false,
        Bool.true_and, if_true, Option.isSome_none]
      by_cases hTe : T.isEmpty
      · have : T = [] := by simpa [List.isEmpty_iff] using hTe
        subst this
        simp
      · have hTne : T ≠ [] := by simpa [List.isEmpty_iff] using hTe
        have hlt : 0 + 4 < 4 + T.length := by
          have : 0 < T.length := List.length_pos.mpr hTne
          omega
        have hseg : ((['<','i','d','>'] ++ T
            ++ ['<','/','i','d','>']).drop (0 + 4)).take
              (4 + T.length - (0 + 4)) = T := by
          rw [List.append_assoc, List.drop_left' (by decide),
            show 4 + T.length - (0 + 4) = T.length from by omega]
          exact List.take_left' rfl
        simp [hlt, hseg, hTe]

lemma fStep_textLine (cfg : Cfg) (st : FState) (T : List Char)
    (hT : '<' ∉ T) (hTne : T ≠ []) (hit : st.in_text = false) :
    fStep cfg st (['<','t','e','x','t','>'] ++ T
      ++ ['<','/','t','e','x','t','>']) =
      if cfg.include_text && st.in_revision then
        { st with in_text := false, text_lines := st.text_lines ++ [T] }
      else st := by
  have hshape : ['<','t','e','x','t','>'] ++ T
      ++ ['<','/','t','e','x','t','>'] =
      '<' :: (['t','e','x','t','>'] ++ T
        ++ '<' :: ['/','t','e','x','t','>']) := by simp
  have c1 : containsSub ['<','r','e','v','i','s','i','o','n','>']
      (['<','t','e','x','t','>'] ++ T ++ ['<','/','t','e','x','t','>']) =
      false := by
    unfold containsSub
    rw [hshape, findIdx_fieldLine _ _ _ _ (by decide) hT,
        if_neg (by simp [isPrefixL])]
    rw [Option.isSome_map']
    decide
  have c2 : containsSub ['<','/','r','e','v','i','s','i','o','n','>']
      (['<','t','e','x','t','>'] ++ T ++ ['<','/','t','e','x','t','>']) =
      false := by
    unfold containsSub
    rw [hshape, findIdx_fieldLine _ _ _ _ (by decide) hT,
        if_neg (by simp [isPrefixL])]
    rw [Option.isSome_map']
    decide
  have c3 : containsSub ['<','r','e','d','i','r','e','c','t']
      (['<','t','e','x','t','>'] ++ T ++ ['<','/','t','e','x','t','>']) =
      false := by
    unfold containsSub
    rw [hshape, findIdx_fieldLine _ _ _ _ (by decide) hT,
        if_neg (by simp [isPrefixL])]
    rw [Option.isSome_map']
    decide
  have c4 : containsSub ['<','t','e','x','t']
      (['<','t','e','x','t','>'] ++ T ++ ['<','/','t','e','x','t','>']) =
      true := by
    unfold containsSub
    rw [findIdx_of_isPrefixL]
    · rfl
    · have := isPrefixL_self_append ['<','t','e','x','t']
        ('>' :: (T ++ ['<','/','t','e','x','t','>']))
      simpa using this
  have fgt : findIdx? ['>']
      (['<','t','e','x','t','>'] ++ T ++ ['<','/','t','e','x','t','>']) =
      some 5 := by
    rw [show ['<','t','e','x','t','>'] ++ T ++ ['<','/','t','e','x','t','>'] =
        ['<','t','e','x','t'] ++ ('>' :: (T ++ ['<','/','t','e','x','t','>']))
        from by simp,
      findIdx_skip '>' [] _ _ (by decide),
      findIdx_of_isPrefixL _ _ (by simp [isPrefixL])]
    rfl
  have ftc : findIdx? ['<','/','t','e','x','t','>']
      (['<','t','e','x','t','>'] ++ T ++ ['<','/','t','e','x','t','>']) =
      some (6 + T.length) := by
    rw [hshape, findIdx_fieldLine _ _ _ _ (by decide) hT,
        if_neg (by simp [isPrefixL]),
        show findIdx? ['<','/','t','e','x','t','>']
          ('<' :: ['/','t','e','x','t','>']) = some 0 from by decide]
    simp
    omega
  have c5 : containsSub ['<','t','i','t','l','e','>']
      (['<','t','e','x','t','>'] ++ T ++ ['<','/','t','e','x','t','>']) =
      false := by
    unfold containsSub
    rw [hshape, findIdx_fieldLine _ _ _ _ (by decide) hT,
        if_neg (by simp [isPrefixL])]
    rw [Option.isSome_map']
    decide
  have c6 : containsSub ['<','i','d','>']
      (['<','t','e','x','t','>'] ++ T ++ ['<','/','t','e','x','t','>']) =
      false := by
    unfold containsSub
    rw [hshape, findIdx_fieldLine _ _ _ _ (by decide) hT,
        if_neg (by simp [isPrefixL])]
    rw [Option.isSome_map']
    decide
  have c8 : containsSub ['<','/','p','a','g','e','>']
      (['<','t','e','x','t','>'] ++ T ++ ['<','/','t','e','x','t','>']) =
      false := by
    unfold containsSub
    rw [hshape, findIdx_fieldLine _ _ _ _ (by decide) hT,
        if_neg (by simp [isPrefixL])]
    rw [Option.isSome_map']
    decide
  have hseg : ((['<','t','e','x','t','>'] ++ T
      ++ ['<','/','t','e','x','t','>']).drop (5 + 1)).take
        (6 + T.length - (5 + 1)) = T := by
    rw [List.append_assoc, List.drop_left' (by decide),
      show 6 + T.length - (5 + 1) = T.length from by omega]
    exact List.take_left' rfl
  have hlt : 5 + 1 < 6 + T.length := by
    have : 0 < T.length := List.length_pos.mpr hTne
    omega
  unfold fStep
  rw [c1, c2, c3, c4]
  simp only [Bool.false_eq_true, if_false, Bool.true_and, hit,
    Bool.false_and, c5, c6, c8, fgt, ftc]
  cases hic : cfg.include_text with
  | false => simp
  | true =>
    cases hrev : st.in_revision with
    | false => simp
    | true =>
      simp only [Bool.and_true, Bool.true_and, if_true]
      simp [hlt, hseg]

lemma fStep_pageOpen (cfg : Cfg) (st : FState) (hit : st.in_text = false) :
    fStep cfg st ['<','p','a','g','e','>'] = st := by
  unfold fStep
  rw [show containsSub ['<','r','e','v','i','s','i','o','n','>']
        ['<','p','a','g','e','>'] = false from by decide,
      show containsSub ['<','/','r','e','v','i','s','i','o','n','>']
        ['<','p','a','g','e','>'] = false from by decide,
      show containsSub ['<','r','e','d','i','r','e','c','t']
        ['<','p','a','g','e','>'] = false from by decide,
      show containsSub ['<','t','e','x','t']
        ['<','p','a','g','e','>'] = false from by decide,
      show containsSub ['<','t','i','t','l','e','>']
        ['<','p','a','g','e','>'] = false from by decide,
      show containsSub ['<','i','d','>']
        ['<','p','a','g','e','>'] = false from by decide,
      show containsSub ['<','/','p','a','g','e','>']
        ['<','p','a','g','e','>'] = false from by decide]
  simp [hit]

lemma fStep_redirectLine (cfg : Cfg) (st : FState) :
    fStep cfg st ['<','r','e','d','i','r','e','c','t',' ','/','>'] =
      { st with is_redirect := true } := by
  unfold fStep
  rw [show containsSub ['<','r','e','v','i','s','i','o','n','>']
        ['<','r','e','d','i','r','e','c','t',' ','/','>'] = false from
        by decide,
      show containsSub ['<','/','r','e','v','i','s','i','o','n','>']
        ['<','r','e','d','i','r','e','c','t',' ','/','>'] = false from
        by decide,
      show containsSub ['<','r','e','d','i','r','e','c','t']
        ['<','r','e','d','i','r','e','c','t',' ','/','>'] = true from
        by decide]
  simp

lemma fStep_revOpen (cfg : Cfg) (st : FState) :
    fStep cfg st ['<','r','e','v','i','s','i','o','n','>'] =
      { st with in_revision := true, in_text := false, text_lines := [] } := by
  unfold fStep
  rw [show containsSub ['<','r','e','v','i','s','i','o','n','>']
        ['<','r','e','v','i','s','i','o','n','>'] = true from by decide]
  simp

lemma fStep_revClose (cfg : Cfg) (st : FState) :
    fStep cfg st ['<','/','r','e','v','i','s','i','o','n','>'] =
      { (if cfg.include_text && !st.text_lines.isEmpty then
           { st with current_text := some (String.mk st.text_lines.flatten) }
         else st) with in_revision := false, in_text := false } := by
  unfold fStep
  rw [show containsSub ['<','r','e','v','i','s','i','o','n','>']
        ['<','/','r','e','v','i','s','i','o','n','>'] = false from by decide,
      show containsSub ['<','/','r','e','v','i','s','i','o','n','>']
        ['<','/','r','e','v','i','s','i','o','n','>'] = true from by decide]
  simp

lemma fStep_pageClose (cfg : Cfg) (st : FState) (hit : st.in_text = false) :
    fStep cfg st ['<','/','p','a','g','e','>'] = fClosePage cfg st := by
  unfold fStep
  rw [show containsSub ['<','r','e','v','i','s','i','o','n','>']
        ['<','/','p','a','g','e','>'] = false from by decide,
      show containsSub ['<','/','r','e','v','i','s','i','o','n','>']
        ['<','/','p','a','g','e','>'] = false from by decide,
      show containsSub ['<','r','e','d','i','r','e','c','t']
        ['<','/','p','a','g','e','>'] = false from by decide,
      show containsSub ['<','t','e','x','t']
        ['<','/','p','a','g','e','>'] = false from by decide,
      show containsSub ['<','t','i','t','l','e','>']
        ['<','/','p','a','g','e','>'] = false from by decide,
      show containsSub ['<','i','d','>']
        ['<','/','p','a','g','e','>'] = false from by decide,
      show containsSub ['<','/','p','a','g','e','>']
        ['<','/','p','a','g','e','>'] = true from by decide]
  simp [hit]

lemma fStep_titleLine2 (cfg : Cfg) (st : FState) (T : List Char)
    (hT : '<' ∉ T) (hrev : st.in_revision = false)
    (hit : st.in_text = false) :
    fStep cfg st (['<','t','i','t','l','e','>'] ++ T
      ++ ['<','/','t','i','t','l','e','>']) =
      { st with current_title := if T.isEmpty then st.current_title
                                 else some (String.mk T) } := by
  rw [fStep_titleLine cfg st T hT hrev hit]
  by_cases hTe : T.isEmpty <;> simp [hTe]

lemma fStep_idLine2 (cfg : Cfg) (st : FState) (T : List Char)
    (hT : '<' ∉ T) (hit : st.in_text = false) :
    fStep cfg st (['<','i','d','>'] ++ T ++ ['<','/','i','d','>']) =
      { st with current_id :=
          if st.in_revision then st.current_id
          else if st.current_id.isSome then st.current_id
          else if T.isEmpty then st.current_id
          else some (String.mk T) } := by
  rw [fStep_idLine cfg st T hT hit]
  obtain ⟨a1, ct, ci, cx, irv, itx, ird, tls⟩ := st
  by_cases h1 : irv <;> by_cases h2 : ci.isSome <;>
    by_cases h3 : T.isEmpty <;> simp_all

lemma fStep_textLine2 (cfg : Cfg) (st : FState) (T : List Char)
    (hT : '<' ∉ T) (hTne : T ≠ []) (hit : st.in_text = false) :
    fStep cfg st (['<','t','e','x','t','>'] ++ T
      ++ ['<','/','t','e','x','t','>']) =
      { st with in_text := false,
                text_lines := if cfg.include_text && st.in_revision then
                                st.text_lines ++ [T]
                              else st.text_lines } := by
  rw [fStep_textLine cfg st T hT hTne hit]
  by_cases h1 : (cfg.include_text && st.in_revision) = true
  · simp [h1]
  · rw [if_neg h1, if_neg h1]
    cases st
    simp_all

def revCloseText (cfg : Cfg) (st : FState) : Option String :=
  if cfg.include_text && !st.text_lines.isEmpty then
    some (String.mk st.text_lines.flatten)
  else st.current_text

lemma fStep_revClose2 (cfg : Cfg) (st : FState) :
    fStep cfg st ['<','/','r','e','v','i','s','i','o','n','>'] =
      { st with current_text := revCloseText cfg st,
                in_revision := false, in_text := false } := by
  rw [fStep_revClose cfg st]
  unfold revCloseText
  by_cases h1 : (cfg.include_text && !st.text_lines.isEmpty) = true
  · simp [h1]
  · rw [if_neg h1, if_neg h1]

lemma fRun_cons_step (cfg : Cfg) (st : FState) (line : List Char)
    (ls : List (List Char)) (h : limitHit cfg st.articles.length = false) :
    fRun cfg st (line :: ls) = fRun cfg (fStep cfg st line) ls := by
  rw [fRun, if_neg (by simp [h])]

/-- Field content free of the characters a dump stream would escape (and
of line breaks, since the fallback reads the stream line by line). -/
def NoXmlSpecial (s : String) : Prop :=
  ∀ c ∈ s.toList, c ≠ '&' ∧ c ≠ '<' ∧ c ≠ '>' ∧ c ≠ '\n'

/-- A page whose rendered byte stream needs no XML escaping and whose text,
when present, is a non-empty single line. -/
def PlainPage (p : PageData) : Prop :=
  NoXmlSpecial p.pid ∧ NoXmlSpecial p.ptitle ∧ NoXmlSpecial p.rev.rid ∧
  ∀ t, p.rev.rtext = some t → NoXmlSpecial t ∧ t ≠ ""

instance (s : String) : Decidable (NoXmlSpecial s) := by
  unfold NoXmlSpecial
  infer_instance

instance decOptForall (o : Option String) (P : String → Prop)
    [inst : ∀ t, Decidable (P t)] :
    Decidable (∀ t, o = some t → P t) :=
  match o with
  | none => isTrue (fun _ ht => Option.noConfusion ht)
  | some x =>
    match inst x with
    | isTrue hx => isTrue (fun _ ht => (Option.some.inj ht) ▸ hx)
    | isFalse hx => isFalse (fun hall => hx (hall x rfl))

instance (p : PageData) : Decidable (PlainPage p) := by
  unfold PlainPage
  infer_instance

lemma escapeXml_of_plain (s : String) (h : NoXmlSpecial s) :
    escapeXml s = s.toList := by
  unfold escapeXml
  have hgen : ∀ l : List Char,
      (∀ c ∈ l, c ≠ '&' ∧ c ≠ '<' ∧ c ≠ '>' ∧ c ≠ '\n') →
      (l.map (fun c =>
        if c = '&' then ['&','a','m','p',';']
        else if c = '<' then ['&','l','t',';']
        else if c = '>' then ['&','g','t',';']
        else [c])).flatten = l := by
    intro l
    induction l with
    | nil => intro _; simp
    | cons c cs ih =>
      intro hl
      have hc := hl c (by simp)
      rw [List.map_cons, List.flatten_cons,
        ih (fun x hx => hl x (by simp [hx]))]
      simp [hc.1, hc.2.1, hc.2.2.1]
  exact hgen s.toList h

lemma plain_no_lt (s : String) (h : NoXmlSpecial s) : '<' ∉ s.toList :=
  fun hm => ((h '<' hm).2.1 rfl)

lemma plain_toList_ne_nil (s : String) (h : s ≠ "") : s.toList ≠ [] := by
  intro hc
  exact h (by rw [← mk_toList s, hc])

lemma getD_if_empty (s : String) :
    (if s.toList.isEmpty then (none : Option String)
     else some (String.mk s.toList)).getD "" = s := by
  by_cases h : s.toList.isEmpty
  · have hnil : s.toList = [] := by simpa [List.isEmpty_iff] using h
    have hs : s = "" := by rw [← mk_toList s, hnil]
    simp [h, hs]
  · have h' : s.data ≠ [] := by simpa [List.isEmpty_iff] using h
    simp only [String.toList] at h' ⊢
    rw [if_neg (by simp [List.isEmpty_iff, h'])]
    rfl

lemma mk_data (s : String) : String.mk s.data = s := rfl

lemma getD_if_nil (s : String) :
    (if s.data = [] then (none : Option String)
     else some s).getD "" = s := by
  cases s with
  | mk d => by_cases h : d = [] <;> simp [h]

lemma fRun_page (cfg : Cfg) (p : PageData) (arts : List Article)
    (rest : List (List Char)) (hp : PlainPage p)
    (hlim : limitHit cfg arts.length = false) :
    fRun cfg (initF arts) (pageLines p ++ rest) =
      match emitOne cfg p with
      | none => fRun cfg (initF arts) rest
      | some a => fRun cfg (initF (arts ++ [a])) rest := by
  obtain ⟨hpid, hptitle, hrid, hrtext⟩ := hp
  have e1 := escapeXml_of_plain _ hpid
  have e2 := escapeXml_of_plain _ hptitle
  have e3 := escapeXml_of_plain _ hrid
  have l1 := plain_no_lt _ hpid
  have l2 := plain_no_lt _ hptitle
  have l3 := plain_no_lt _ hrid
  cases hr : p.redirect with
  | false =>
    cases ht : p.rev.rtext with
    | some t =>
      have e4 := escapeXml_of_plain t (hrtext t ht).1
      have l4 := plain_no_lt t (hrtext t ht).1
      have n4 := plain_toList_ne_nil t (hrtext t ht).2
      have hlines : pageLines p ++ rest =
          ['<','p','a','g','e','>'] ::
          (['<','t','i','t','l','e','>'] ++ p.ptitle.toList
            ++ ['<','/','t','i','t','l','e','>']) ::
          (['<','i','d','>'] ++ p.pid.toList ++ ['<','/','i','d','>']) ::
          ['<','r','e','v','i','s','i','o','n','>'] ::
          (['<','i','d','>'] ++ p.rev.rid.toList ++ ['<','/','i','d','>']) ::
          (['<','t','e','x','t','>'] ++ t.toList
            ++ ['<','/','t','e','x','t','>']) ::
          ['<','/','r','e','v','i','s','i','o','n','>'] ::
          ['<','/','p','a','g','e','>'] :: rest := by
        simp [pageLines, hr, ht, e1, e2, e3, e4]
      rw [hlines]
      rw [fRun_cons_step cfg _ _ _ hlim, fStep_pageOpen cfg _ rfl]
      rw [fRun_cons_step cfg _ _ _ hlim,
        fStep_titleLine2 cfg _ _ l2 rfl rfl]
      rw [fRun_cons_step cfg _ _ _ hlim, fStep_idLine2 cfg _ _ l1 rfl]
      rw [fRun_cons_step cfg _ _ _ hlim, fStep_revOpen cfg _]
      rw [fRun_cons_step cfg _ _ _ hlim, fStep_idLine2 cfg _ _ l3 rfl]
      rw [fRun_cons_step cfg _ _ _ hlim, fStep_textLine2 cfg _ _ l4 n4 rfl]
      rw [fRun_cons_step cfg _ _ _ hlim, fStep_revClose2 cfg _]
      rw [fRun_cons_step cfg _ _ _ hlim, fStep_pageClose cfg _ rfl]
      cases hic : cfg.include_text with
      | true =>
        simp only [fClosePage, revCloseText, initF, hic]
        simp [emitOne, emitCond, capturedText, hr, ht, hic]
        have ht2 : t ≠ "" := (hrtext t ht).2
        simp only [mk_data, getD_if_nil]
        rw [apply_ite FState.articles]
        by_cases hc : (¬p.ptitle = "" ∧ ¬p.pid = "") ∧
            is_valid_article p.ptitle false cfg.filter_disambiguation = true
        · simp [hc, ht2]
        · simp [hc]
      | false =>
        simp only [fClosePage, revCloseText, initF, hic]
        simp [emitOne, emitCond, capturedText, hr, ht, hic]
        simp only [mk_data, getD_if_nil]
        rw [apply_ite FState.articles]
        by_cases hc : (¬p.ptitle = "" ∧ ¬p.pid = "") ∧
            is_valid_article p.ptitle false cfg.filter_disambiguation = true
        · simp [hc]
        · simp [hc]
    | none =>
      have hlines : pageLines p ++ rest =
          ['<','p','a','g','e','>'] ::
          (['<','t','i','t','l','e','>'] ++ p.ptitle.toList
            ++ ['<','/','t','i','t','l','e','>']) ::
          (['<','i','d','>'] ++ p.pid.toList ++ ['<','/','i','d','>']) ::
          ['<','r','e','v','i','s','i','o','n','>'] ::
          (['<','i','d','>'] ++ p.rev.rid.toList ++ ['<','/','i','d','>']) ::
          ['<','/','r','e','v','i','s','i','o','n','>'] ::
          ['<','/','p','a','g','e','>'] :: rest := by
        simp [pageLines, hr, ht, e1, e2, e3]
      rw [hlines]
      rw [fRun_cons_step cfg _ _ _ hlim, fStep_pageOpen cfg _ rfl]
      rw [fRun_cons_step cfg _ _ _ hlim,
        fStep_titleLine2 cfg _ _ l2 rfl rfl]
      rw [fRun_cons_step cfg _ _ _ hlim, fStep_idLine2 cfg _ _ l1 rfl]
      rw [fRun_cons_step cfg _ _ _ hlim, fStep_revOpen cfg _]
      rw [fRun_cons_step cfg _ _ _ hlim, fStep_idLine2 cfg _ _ l3 rfl]
      rw [fRun_cons_step cfg _ _ _ hlim, fStep_revClose2 cfg _]
      rw [fRun_cons_step cfg _ _ _ hlim, fStep_pageClose cfg _ rfl]
      simp only [fClosePage, revCloseText, initF]
      simp [emitOne, emitCond, capturedText, hr, ht]
      simp only [mk_data, getD_if_nil]
      rw [apply_ite FState.articles]
      by_cases hc : (¬p.ptitle = "" ∧ ¬p.pid = "") ∧
          is_valid_article p.ptitle false cfg.filter_disambiguation = true
      · simp [hc]
      · simp [hc]
  | true =>
    cases ht : p.rev.rtext with
    | some t =>
      have e4 := escapeXml_of_plain t (hrtext t ht).1
      have l4 := plain_no_lt t (hrtext t ht).1
      have n4 := plain_toList_ne_nil t (hrtext t ht).2
      have hlines : pageLines p ++ rest =
          ['<','p','a','g','e','>'] ::
          (['<','t','i','t','l','e','>'] ++ p.ptitle.toList
            ++ ['<','/','t','i','t','l','e','>']) ::
          (['<','i','d','>'] ++ p.pid.toList ++ ['<','/','i','d','>']) ::
          ['<','r','e','d','i','r','e','c','t',' ','/','>'] ::
          ['<','r','e','v','i','s','i','o','n','>'] ::
          (['<','i','d','>'] ++ p.rev.rid.toList ++ ['<','/','i','d','>']) ::
          (['<','t','e','x','t','>'] ++ t.toList
            ++ ['<','/','t','e','x','t','>']) ::
          ['<','/','r','e','v','i','s','i','o','n','>'] ::
          ['<','/','p','a','g','e','>'] :: rest := by
        simp [pageLines, hr, ht, e1, e2, e3, e4]
      rw [hlines]
      rw [fRun_cons_step cfg _ _ _ hlim, fStep_pageOpen cfg _ rfl]
      rw [fRun_cons_step cfg _ _ _ hlim,
        fStep_titleLine2 cfg _ _ l2 rfl rfl]
      rw [fRun_cons_step cfg _ _ _ hlim, fStep_idLine2 cfg _ _ l1 rfl]
      rw [fRun_cons_step cfg _ _ _ hlim, fStep_redirectLine cfg _]
      rw [fRun_cons_step cfg _ _ _ hlim, fStep_revOpen cfg _]
      rw [fRun_cons_step cfg _ _ _ hlim, fStep_idLine2 cfg _ _ l3 rfl]
      rw [fRun_cons_step cfg _ _ _ hlim, fStep_textLine2 cfg _ _ l4 n4 rfl]
      rw [fRun_cons_step cfg _ _ _ hlim, fStep_revClose2 cfg _]
      rw [fRun_cons_step cfg _ _ _ hlim, fStep_pageClose cfg _ rfl]
      cases hic : cfg.include_text with
      | true =>
        simp only [fClosePage, revCloseText, initF, hic]
        simp [emitOne, emitCond, capturedText, hr, ht, hic]
        have ht2 : t ≠ "" := (hrtext t ht).2
        simp only [mk_data, getD_if_nil]
        rw [apply_ite FState.articles]
        by_cases hc : (¬p.ptitle = "" ∧ ¬p.pid = "") ∧
            is_valid_article p.ptitle true cfg.filter_disambiguation = true
        · simp [hc, ht2]
        · simp [hc]
      | false =>
        simp only [fClosePage, revCloseText, initF, hic]
        simp [emitOne, emitCond, capturedText, hr, ht, hic]
        simp only [mk_data, getD_if_nil]
        rw [apply_ite FState.articles]
        by_cases hc : (¬p.ptitle = "" ∧ ¬p.pid = "") ∧
            is_valid_article p.ptitle true cfg.filter_disambiguation = true
        · simp [hc]
        · simp [hc]
    | none =>
      have hlines : pageLines p ++ rest =
          ['<','p','a','g','e','>'] ::
          (['<','t','i','t','l','e','>'] ++ p.ptitle.toList
            ++ ['<','/','t','i','t','l','e','>']) ::
          (['<','i','d','>'] ++ p.pid.toList ++ ['<','/','i','d','>']) ::
          ['<','r','e','d','i','r','e','c','t',' ','/','>'] ::
          ['<','r','e','v','i','s','i','o','n','>'] ::
          (['<','i','d','>'] ++ p.rev.rid.toList ++ ['<','/','i','d','>']) ::
          ['<','/','r','e','v','i','s','i','o','n','>'] ::
          ['<','/','p','a','g','e','>'] :: rest := by
        simp [pageLines, hr, ht, e1, e2, e3]
      rw [hlines]
      rw [fRun_cons_step cfg _ _ _ hlim, fStep_pageOpen cfg _ rfl]
      rw [fRun_cons_step cfg _ _ _ hlim,
        fStep_titleLine2 cfg _ _ l2 rfl rfl]
      rw [fRun_cons_step cfg _ _ _ hlim, fStep_idLine2 cfg _ _ l1 rfl]
      rw [fRun_cons_step cfg _ _ _ hlim, fStep_redirectLine cfg _]
      rw [fRun_cons_step cfg _ _ _ hlim, fStep_revOpen cfg _]
      rw [fRun_cons_step cfg _ _ _ hlim, fStep_idLine2 cfg _ _ l3 rfl]
      rw [fRun_cons_step cfg _ _ _ hlim, fStep_revClose2 cfg _]
      rw [fRun_cons_step cfg _ _ _ hlim, fStep_pageClose cfg _ rfl]
      simp only [fClosePage, revCloseText, initF]
      simp [emitOne, emitCond, capturedText, hr, ht]
      simp only [mk_data, getD_if_nil]
      rw [apply_ite FState.articles]
      by_cases hc : (¬p.ptitle = "" ∧ ¬p.pid = "") ∧
          is_valid_article p.ptitle true cfg.filter_disambiguation = true
      · simp [hc]
      · simp [hc]

lemma fRun_stopped (cfg : Cfg) (st : FState) (ls : List (List Char))
    (h : limitHit cfg st.articles.length = true) :
    fRun cfg st ls = st.articles := by
  cases ls with
  | nil => rfl
  | cons l ls => rw [fRun, if_pos (by simp [h])]

lemma limitHit_zero_len (cfg : Cfg) :
    limitHit cfg ([] : List Article).length = false := by
  cases hk : cfg.limit <;> simp [limitHit, hk]

lemma runs_eq_aux (cfg : Cfg) :
    ∀ (ps : List PageData) (arts : List Article),
      (∀ p ∈ ps, PlainPage p) → limitHit cfg arts.length = false →
      fRun cfg (initF arts) (pagesToLines ps) =
        sRun cfg (initS arts) (pagesToEvents ps) := by
  intro ps
  induction ps with
  | nil => intro arts _ _; rfl
  | cons p ps ih =>
    intro arts hplain hlim
    have hsplitL : pagesToLines (p :: ps) =
        pageLines p ++ pagesToLines ps := by
      simp [pagesToLines]
    have hsplitE : pagesToEvents (p :: ps) =
        pageEvents p ++ pagesToEvents ps := by
      simp [pagesToEvents]
    rw [hsplitL, hsplitE,
      fRun_page cfg p arts _ (hplain p (by simp)) hlim, sRun_page]
    cases he : emitOne cfg p with
    | none => exact ih arts (fun q hq => hplain q (by simp [hq])) hlim
    | some a =>
      cases hl : limitHit cfg (arts.length + 1) with
      | true =>
        dsimp only
        rw [fRun_stopped cfg (initF (arts ++ [a])) (pagesToLines ps)
          (by simpa [initF] using hl)]
        simp [initF]
      | false =>
        dsimp only
        rw [ih (arts ++ [a]) (fun q hq => hplain q (by simp [hq]))
          (by simpa using hl)]
        simp

/-- C3 counterexample: the structured parser receives XML-decoded text from
the parser (`elem.text`), while the fallback copies raw line content; a
page titled `A&B` (stored as `A&amp;B` in the byte stream) yields two
different Articles. -/
theorem c3_counterexample :
    fRun ⟨none, true, false⟩ (initF [])
      (pagesToLines [⟨"1", "A&B", false, ⟨"2", none⟩⟩]) =
        [{ id := "1", title := "A&amp;B", text := none }]
    ∧ sRun ⟨none, true, false⟩ (initS [])
        (pagesToEvents [⟨"1", "A&B", false, ⟨"2", none⟩⟩]) =
        [{ id := "1", title := "A&B", text := none }]
    ∧ fRun ⟨none, true, false⟩ (initF [])
        (pagesToLines [⟨"1", "A&B", false, ⟨"2", none⟩⟩]) ≠
      sRun ⟨none, true, false⟩ (initS [])
        (pagesToEvents [⟨"1", "A&B", false, ⟨"2", none⟩⟩]) := by
  refine ⟨by decide, by decide, by decide⟩

/-- C3 (amended): on dump streams whose field contents contain no
XML-special characters or line breaks (so no escaping is involved) and
whose text elements, when present, are non-empty, the fallback loop
produces exactly the structured loop's output, for every configuration
(including limits). -/
theorem c3_fallback_matches_structured_on_plain (cfg : Cfg)
    (ps : List PageData) (hplain : ∀ p ∈ ps, PlainPage p) :
    fRun cfg (initF []) (pagesToLines ps) =
      sRun cfg (initS []) (pagesToEvents ps) :=
  runs_eq_aux cfg ps [] hplain (limitHit_zero_len cfg)

/-- Witness for C3's amended theorem at a concrete escaping-free dump. -/
theorem c3_witness :
    fRun ⟨some 2, true, true⟩ (initF [])
      (pagesToLines [⟨"1", "Cat", false, ⟨"9", some "meow"⟩⟩,
                     ⟨"2", "Dog", false, ⟨"8", none⟩⟩]) =
    sRun ⟨some 2, true, true⟩ (initS [])
      (pagesToEvents [⟨"1", "Cat", false, ⟨"9", some "meow"⟩⟩,
                      ⟨"2", "Dog", false, ⟨"8", none⟩⟩]) :=
  c3_fallback_matches_structured_on_plain ⟨some 2, true, true⟩
    [⟨"1", "Cat", false, ⟨"9", some "meow"⟩⟩,
     ⟨"2", "Dog", false, ⟨"8", none⟩⟩] (by decide)

/-- C6: no per-page state survives a page boundary: over any well-formed
dump, both loops' output is the per-page `filterMap` — every emitted record
is a function of its own page alone, so no field captured on one page
appears in a later page's Article. -/
theorem c6_no_cross_page_leak (cfg : Cfg) (ps : List PageData)
    (hlim : cfg.limit = none) (hplain : ∀ p ∈ ps, PlainPage p) :
    sRun cfg (initS []) (pagesToEvents ps) = ps.filterMap (emitOne cfg)
    ∧ fRun cfg (initF []) (pagesToLines ps) = ps.filterMap (emitOne cfg) := by
  have h1 : sRun cfg (initS []) (pagesToEvents ps) =
      ps.filterMap (emitOne cfg) := by
    rw [sRun_pages cfg ps [] (limitHit_zero_len cfg)]
    simp [takeLim, hlim]
  exact ⟨h1, (runs_eq_aux cfg ps [] hplain (limitHit_zero_len cfg)).trans h1⟩

/-- Witness for C6: a two-page dump where leaking the first page's text or
redirect flag into the second would change the output. -/
theorem c6_witness :
    sRun ⟨none, true, true⟩ (initS [])
      (pagesToEvents [⟨"1", "Cat", true, ⟨"9", some "meow"⟩⟩,
                      ⟨"2", "Dog", false, ⟨"8", none⟩⟩]) =
      [⟨"1", "Cat", true, ⟨"9", some "meow"⟩⟩,
       ⟨"2", "Dog", false, ⟨"8", none⟩⟩].filterMap
        (emitOne ⟨none, true, true⟩) := by
  have h := c6_no_cross_page_leak ⟨none, true, true⟩
    [⟨"1", "Cat", true, ⟨"9", some "meow"⟩⟩,
     ⟨"2", "Dog", false, ⟨"8", none⟩⟩] rfl (by decide)
  exact h.1

lemma sStep_cfg_congr (c1 c2 : Cfg)
    (hfd : c1.filter_disambiguation = c2.filter_disambiguation)
    (hit : c1.include_text = c2.include_text)
    (hlh : ∀ n, limitHit c1 n = limitHit c2 n) (st : SState) (e : Event) :
    sStep c1 st e = sStep c2 st e := by
  cases e with
  | start t => cases t <;> rfl
  | close t txt => cases t <;> simp [sStep, hfd, hit, hlh]

lemma sRun_cfg_congr (c1 c2 : Cfg)
    (hfd : c1.filter_disambiguation = c2.filter_disambiguation)
    (hit : c1.include_text = c2.include_text)
    (hlh : ∀ n, limitHit c1 n = limitHit c2 n) :
    ∀ (es : List Event) (st : SState), sRun c1 st es = sRun c2 st es := by
  intro es
  induction es with
  | nil => intro st; rfl
  | cons e es ih =>
    intro st
    rw [sRun, sRun, sStep_cfg_congr c1 c2 hfd hit hlh st e]
    cases h : sStep c2 st e with
    | mk st1 b => cases b <;> simp [ih]

lemma fStep_cfg_congr (c1 c2 : Cfg)
    (hfd : c1.filter_disambiguation = c2.filter_disambiguation)
    (hit : c1.include_text = c2.include_text) (st : FState)
    (line : List Char) :
    fStep c1 st line = fStep c2 st line := by
  simp [fStep, fClosePage, hfd, hit]

lemma fRun_cfg_congr (c1 c2 : Cfg)
    (hfd : c1.filter_disambiguation = c2.filter_disambiguation)
    (hit : c1.include_text = c2.include_text)
    (hlh : ∀ n, limitHit c1 n = limitHit c2 n) :
    ∀ (ls : List (List Char)) (st : FState), fRun c1 st ls = fRun c2 st ls := by
  intro ls
  induction ls with
  | nil => intro st; rfl
  | cons l ls ih =>
    intro st
    rw [fRun, fRun, hlh, fStep_cfg_congr c1 c2 hfd hit]
    cases limitHit c2 st.articles.length <;> simp [ih]

/-- C9: a limit of 0 is falsy in the Python check `limit and
len(articles) >= limit`, so limit 0 behaves exactly like no limit at all
in both extraction loops: every valid article is emitted rather than
none. -/
theorem c9_limit_zero_means_unlimited (fd it : Bool) (es : List Event)
    (ls : List (List Char)) (st : SState) (fst : FState) :
    sRun ⟨some 0, fd, it⟩ st es = sRun ⟨none, fd, it⟩ st es
    ∧ fRun ⟨some 0, fd, it⟩ fst ls = fRun ⟨none, fd, it⟩ fst ls := by
  have hlh : ∀ n, limitHit ⟨some 0, fd, it⟩ n = limitHit ⟨none, fd, it⟩ n := by
    intro n
    simp [limitHit]
  exact ⟨sRun_cfg_congr ⟨some 0, fd, it⟩ ⟨none, fd, it⟩ rfl rfl hlh es st,
         fRun_cfg_congr ⟨some 0, fd, it⟩ ⟨none, fd, it⟩ rfl rfl hlh ls fst⟩

/-- Lowercase hex digit, as Python's `%04x` formatting emits. -/
def hexDig (n : Nat) : Char :=
  if n < 10 then Char.ofNat ('0'.toNat + n)
  else Char.ofNat ('a'.toNat + n - 10)

/-- Escaping of one character in `json.dumps(..., ensure_ascii=False)`:
quote, backslash and control characters are escaped, everything else is
emitted as is. -/
def escapeJsonChar (c : Char) : List Char :=
  if c = '"' then ['\\', '"']
  else if c = '\\' then ['\\', '\\']
  else if c = '\n' then ['\\', 'n']
  else if c = '\t' then ['\\', 't']
  else if c = '\r' then ['\\', 'r']
  else if c.toNat = 8 then ['\\', 'b']
  else if c.toNat = 12 then ['\\', 'f']
  else if c.toNat < 32 then
    ['\\', 'u', '0', '0', hexDig (c.toNat / 16), hexDig (c.toNat % 16)]
  else [c]

def escapeJsonList (l : List Char) : List Char :=
  (l.map escapeJsonChar).flatten

/-- A JSON string literal. -/
def serializeJString (s : String) : List Char :=
  '"' :: escapeJsonList s.toList ++ ['"']

/-- The JSONL output line for one Article (source lines 410-414):
`json.dumps(article, ensure_ascii=False)` with the dict's insertion order
`id`, `title`, then `text` when present, and Python's default separators
`", "` and `": "`. -/
def serializeArticle (a : Article) : List Char :=
  ['{'] ++ serializeJString "id" ++ [':', ' '] ++ serializeJString a.id
  ++ [',', ' '] ++ serializeJString "title" ++ [':', ' ']
  ++ serializeJString a.title
  ++ (match a.text with
      | some t => [',', ' '] ++ serializeJString "text" ++ [':', ' ']
                  ++ serializeJString t
      | none => [])
  ++ ['}']

def hexVal (c : Char) : Option Nat :=
  if '0' ≤ c ∧ c ≤ '9' then some (c.toNat - '0'.toNat)
  else if 'a' ≤ c ∧ c ≤ 'f' then some (c.toNat - 'a'.toNat + 10)
  else if 'A' ≤ c ∧ c ≤ 'F' then some (c.toNat - 'A'.toNat + 10)
  else none

/-- Parsing mode of the JSON string-body scanner: plain characters, just
after a backslash, or inside a `\\u` sequence (with the hex digit values
read so far, most recent first). -/
inductive JMode where
  | normal
  | esc
  | uni (vals : List Nat)
deriving DecidableEq, Repr

/-- A genuine JSON string-body scanner: reads characters after an opening
quote up to the closing quote, decoding the standard escapes; returns the
decoded content (the accumulator is kept reversed) and the remainder after
the closing quote. -/
def jsLoop (mode : JMode) (acc : List Char) :
    List Char → Option (List Char × List Char)
  | [] => none
  | c :: r =>
    match mode with
    | .normal =>
      if c = '"' then some (acc.reverse, r)
      else if c = '\\' then jsLoop .esc acc r
      else jsLoop .normal (c :: acc) r
    | .esc =>
      if c = '"' then jsLoop .normal ('"' :: acc) r
      else if c = '\\' then jsLoop .normal ('\\' :: acc) r
      else if c = '/' then jsLoop .normal ('/' :: acc) r
      else if c = 'n' then jsLoop .normal ('\n' :: acc) r
      else if c = 't' then jsLoop .normal ('\t' :: acc) r
      else if c = 'r' then jsLoop .normal ('\r' :: acc) r
      else if c = 'b' then jsLoop .normal (Char.ofNat 8 :: acc) r
      else if c = 'f' then jsLoop .normal (Char.ofNat 12 :: acc) r
      else if c = 'u' then jsLoop (.uni []) acc r
      else none
    | .uni vals =>
      match hexVal c with
      | none => none
      | some v =>
        match vals with
        | [v3, v2, v1] =>
          jsLoop .normal
            (Char.ofNat (4096 * v1 + 256 * v2 + 16 * v3 + v) :: acc) r
        | _ => jsLoop (.uni (v :: vals)) acc r

/-- Parses a JSON string body (after the opening quote). -/
def parseJString (l : List Char) : Option (List Char × List Char) :=
  jsLoop .normal [] l

/-- Parses one `"key": "value"` member, returning the pair and the rest. -/
def parseMember (l : List Char) : Option ((String × String) × List Char) :=
  match l with
  | '"' :: r =>
    match parseJString r with
    | some (k, r1) =>
      match r1 with
      | ':' :: ' ' :: '"' :: r2 =>
        match parseJString r2 with
        | some (v, r3) => some ((String.mk k, String.mk v), r3)
        | none => none
      | _ => none
    | none => none
  | _ => none

/-- Parses one serialized Article object line back into an Article. -/
def parseArticleLine (l : List Char) : Option Article :=
  match l with
  | '{' :: r =>
    match parseMember r with
    | some ((k1, v1), r1) =>
      match r1 with
      | ',' :: ' ' :: r2 =>
        match parseMember r2 with
        | some ((k2, v2), r3) =>
          match r3 with
          | ['}'] =>
            if k1 = "id" ∧ k2 = "title" then some ⟨v1, v2, none⟩ else none
          | ',' :: ' ' :: r4 =>
            match parseMember r4 with
            | some ((k3, v3), ['}']) =>
              if k1 = "id" ∧ k2 = "title" ∧ k3 = "text" then
                some ⟨v1, v2, some v3⟩
              else none
            | _ => none
          | _ => none
        | none => none
      | _ => none
    | none => none
  | _ => none

example :
    parseArticleLine (serializeArticle ⟨"42", "A \"B\"\\C", some "x\ny"⟩) =
      some ⟨"42", "A \"B\"\\C", some "x\ny"⟩ := by decide

lemma hexVal_hexDig (m : Nat) (h : m < 16) : hexVal (hexDig m) = some m := by
  interval_cases m <;> decide

lemma jsLoop_normal_plain (c : Char) (acc r : List Char)
    (h1 : ¬c = '"') (h2 : ¬c = '\\') :
    jsLoop .normal acc (c :: r) = jsLoop .normal (c :: acc) r := by
  rw [jsLoop]
  simp [h1, h2]

lemma jsLoop_uni_final (v3 v2 v1 v : Nat) (d : Char) (acc r : List Char)
    (hd : hexVal d = some v) :
    jsLoop (.uni [v3, v2, v1]) acc (d :: r) =
      jsLoop .normal
        (Char.ofNat (4096 * v1 + 256 * v2 + 16 * v3 + v) :: acc) r := by
  rw [jsLoop]
  simp [hd]

lemma jsLoop_escape :
    ∀ (s acc rest : List Char),
      jsLoop .normal acc (escapeJsonList s ++ '"' :: rest) =
        some (acc.reverse ++ s, rest) := by
  intro s
  induction s with
  | nil =>
    intro acc rest
    simp only [escapeJsonList, List.map_nil, List.flatten_nil,
      List.nil_append]
    rw [show jsLoop .normal acc ('"' :: rest) = some (acc.reverse, rest)
      from rfl]
    simp
  | cons c cs ih =>
    intro acc rest
    have hstep : escapeJsonList (c :: cs) ++ '"' :: rest =
        escapeJsonChar c ++ (escapeJsonList cs ++ '"' :: rest) := by
      simp [escapeJsonList]
    rw [hstep]
    have hrev : ∀ (x : Char),
        ((x :: acc).reverse : List Char) ++ cs = acc.reverse ++ (x :: cs) := by
      intro x
      simp
    have hbs : ∀ r, jsLoop JMode.normal acc ('\\' :: r) =
        jsLoop .esc acc r := fun _ => rfl
    by_cases h1 : c = '"'
    · subst h1
      have he : escapeJsonChar '"' = ['\\', '"'] := by decide
      rw [he]
      simp only [List.cons_append, List.nil_append]
      rw [hbs, show ∀ r, jsLoop JMode.esc acc ('"' :: r) =
        jsLoop .normal ('"' :: acc) r from fun _ => rfl, ih, hrev]
    · by_cases h2 : c = '\\'
      · subst h2
        have he : escapeJsonChar '\\' = ['\\', '\\'] := by decide
        rw [he]
        simp only [List.cons_append, List.nil_append]
        rw [hbs, show ∀ r, jsLoop JMode.esc acc ('\\' :: r) =
          jsLoop .normal ('\\' :: acc) r from fun _ => rfl, ih, hrev]
      · by_cases h3 : c = '\n'
        · subst h3
          have he : escapeJsonChar '\n' = ['\\', 'n'] := by decide
          rw [he]
          simp only [List.cons_append, List.nil_append]
          rw [hbs, show ∀ r, jsLoop JMode.esc acc ('n' :: r) =
            jsLoop .normal ('\n' :: acc) r from fun _ => rfl, ih, hrev]
        · by_cases h4 : c = '\t'
          · subst h4
            have he : escapeJsonChar '\t' = ['\\', 't'] := by decide
            rw [he]
            simp only [List.cons_append, List.nil_append]
            rw [hbs, show ∀ r, jsLoop JMode.esc acc ('t' :: r) =
              jsLoop .normal ('\t' :: acc) r from fun _ => rfl, ih, hrev]
          · by_cases h5 : c = '\r'
            · subst h5
              have he : escapeJsonChar '\r' = ['\\', 'r'] := by decide
              rw [he]
              simp only [List.cons_append, List.nil_append]
              rw [hbs, show ∀ r, jsLoop JMode.esc acc ('r' :: r) =
                jsLoop .normal ('\r' :: acc) r from fun _ => rfl, ih, hrev]
            · by_cases h6 : c.toNat = 8
              · have hc : Char.ofNat 8 = c := by
                  rw [← h6, Char.ofNat_toNat]
                have he : escapeJsonChar c = ['\\', 'b'] := by
                  unfold escapeJsonChar
                  rw [if_neg h1, if_neg h2, if_neg h3, if_neg h4, if_neg h5,
                    if_pos h6]
                rw [he]
                simp only [List.cons_append, List.nil_append]
                rw [hbs, show ∀ r, jsLoop JMode.esc acc ('b' :: r) =
                  jsLoop .normal (Char.ofNat 8 :: acc) r from fun _ => rfl,
                  ih, hc, hrev]
              · by_cases h7 : c.toNat = 12
                · have hc : Char.ofNat 12 = c := by
                    rw [← h7, Char.ofNat_toNat]
                  have he : escapeJsonChar c = ['\\', 'f'] := by
                    unfold escapeJsonChar
                    rw [if_neg h1, if_neg h2, if_neg h3, if_neg h4,
                      if_neg h5, if_neg h6, if_pos h7]
                  rw [he]
                  simp only [List.cons_append, List.nil_append]
                  rw [hbs, show ∀ r, jsLoop JMode.esc acc ('f' :: r) =
                    jsLoop .normal (Char.ofNat 12 :: acc) r
                    from fun _ => rfl, ih, hc, hrev]
                · by_cases h8 : c.toNat < 32
                  · have hhi : c.toNat / 16 < 16 := by omega
                    have hlo : c.toNat % 16 < 16 := by omega
                    have he : escapeJsonChar c =
                        ['\\', 'u', '0', '0', hexDig (c.toNat / 16),
                         hexDig (c.toNat % 16)] := by
                      unfold escapeJsonChar
                      rw [if_neg h1, if_neg h2, if_neg h3, if_neg h4,
                        if_neg h5, if_neg h6, if_neg h7, if_pos h8]
                    rw [he]
                    simp only [List.cons_append, List.nil_append]
                    rw [hbs, show ∀ r, jsLoop JMode.esc acc ('u' :: r) =
                      jsLoop (.uni []) acc r from fun _ => rfl]
                    rw [show ∀ r, jsLoop (JMode.uni []) acc ('0' :: r) =
                        jsLoop (.uni [0]) acc r from fun r => by
                          rw [jsLoop]
                          simp [show hexVal '0' = some 0 from by decide]]
                    rw [show ∀ r, jsLoop (JMode.uni [0]) acc ('0' :: r) =
                        jsLoop (.uni [0, 0]) acc r from fun r => by
                          rw [jsLoop]
                          simp [show hexVal '0' = some 0 from by decide]]
                    rw [show ∀ r,
                        jsLoop (JMode.uni [0, 0]) acc
                          (hexDig (c.toNat / 16) :: r) =
                        jsLoop (.uni [c.toNat / 16, 0, 0]) acc r
                        from fun r => by
                          rw [jsLoop]
                          simp [hexVal_hexDig _ hhi]]
                    rw [jsLoop_uni_final _ _ _ _ _ _ _
                      (hexVal_hexDig _ hlo)]
                    have hval : 4096 * 0 + 256 * 0 + 16 * (c.toNat / 16)
                        + c.toNat % 16 = c.toNat := by omega
                    rw [hval, Char.ofNat_toNat, ih, hrev]
                  · have he : escapeJsonChar c = [c] := by
                      unfold escapeJsonChar
                      rw [if_neg h1, if_neg h2, if_neg h3, if_neg h4,
                        if_neg h5, if_neg h6, if_neg h7, if_neg h8]
                    rw [he]
                    simp only [List.cons_append, List.nil_append]
                    rw [jsLoop_normal_plain c acc _ h1 h2, ih, hrev]

lemma parseJString_escape (s rest : List Char) :
    parseJString (escapeJsonList s ++ '"' :: rest) = some (s, rest) := by
  unfold parseJString
  rw [jsLoop_escape]
  simp

lemma parseMember_serialize (k v : String) (rest : List Char) :
    parseMember (serializeJString k ++ [':', ' ']
      ++ serializeJString v ++ rest) = some ((k, v), rest) := by
  have h1 := parseJString_escape k.toList
    (':' :: ' ' :: '"' :: (escapeJsonList v.toList ++ '"' :: rest))
  have h2 := parseJString_escape v.toList rest
  have hshape : serializeJString k ++ [':', ' ']
      ++ serializeJString v ++ rest =
      '"' :: (escapeJsonList k.toList ++ '"' ::
        (':' :: ' ' :: '"' :: (escapeJsonList v.toList ++ '"' :: rest))) := by
    simp [serializeJString]
  simp only [String.toList] at h1 h2
  rw [hshape]
  simp [parseMember, h1, h2]

/-- C7: serializing an Article to its JSONL output line and parsing that
line back yields the identical `{id, title, text?}` record, for arbitrary
field contents (all JSON escaping round-trips). -/
theorem c7_article_roundtrip (a : Article) :
    parseArticleLine (serializeArticle a) = some a := by
  cases a with
  | mk i t x =>
    cases x with
    | none =>
      have h2 := parseMember_serialize "title" t ['}']
      have h1 := parseMember_serialize "id" i
        (',' :: ' ' :: (serializeJString "title" ++ [':', ' ']
          ++ serializeJString t ++ ['}']))
      have hshape : serializeArticle ⟨i, t, none⟩ =
          '{' :: (serializeJString "id" ++ [':', ' ']
            ++ serializeJString i ++
            (',' :: ' ' :: (serializeJString "title" ++ [':', ' ']
              ++ serializeJString t ++ ['}']))) := by
        simp [serializeArticle]
      simp only [List.append_assoc, List.cons_append, List.nil_append]
        at h1 h2
      rw [hshape]
      simp [parseArticleLine, h1, h2]
    | some xt =>
      have h3 := parseMember_serialize "text" xt ['}']
      have h2 := parseMember_serialize "title" t
        (',' :: ' ' :: (serializeJString "text" ++ [':', ' ']
          ++ serializeJString xt ++ ['}']))
      have h1 := parseMember_serialize "id" i
        (',' :: ' ' :: (serializeJString "title" ++ [':', ' ']
          ++ serializeJString t ++
          (',' :: ' ' :: (serializeJString "text" ++ [':', ' ']
            ++ serializeJString xt ++ ['}']))))
      have hshape : serializeArticle ⟨i, t, some xt⟩ =
          '{' :: (serializeJString "id" ++ [':', ' ']
            ++ serializeJString i ++
            (',' :: ' ' :: (serializeJString "title" ++ [':', ' ']
              ++ serializeJString t ++
              (',' :: ' ' :: (serializeJString "text" ++ [':', ' ']
                ++ serializeJString xt ++ ['}']))))) := by
        simp [serializeArticle]
      simp only [List.append_assoc, List.cons_append, List.nil_append]
        at h1 h2 h3
      rw [hshape]
      simp [parseArticleLine, h1, h2, h3]

/-! ### download_dump (source lines 41-80): error-handling model

`download_dump date output_dir` builds the dump URL for the date, returns
the local path early if it already exists, otherwise retrieves the URL.
The `try` block catches only `urllib.error.HTTPError`: a 404 is converted
into a `FileNotFoundError` carrying a guidance message, any other HTTP
status is re-raised, and non-HTTP exceptions propagate unchanged.  The
network interaction is modelled by an abstract outcome parameter. -/

inductive DownloadOutcome where
  | localExists : DownloadOutcome
  | success : DownloadOutcome
  | httpError : Nat → DownloadOutcome
  | otherFailure : String → DownloadOutcome
deriving DecidableEq

inductive DownloadError where
  | notFound : String → DownloadError
  | httpFailure : Nat → DownloadError
  | ioFailure : String → DownloadError
deriving DecidableEq

/-- `dump_filename = f"enwiki-{date}-pages-articles.xml.bz2"` (line 52). -/
def dump_filename (date : String) : String :=
  "enwiki-" ++ date ++ "-pages-articles.xml.bz2"

/-- The `FileNotFoundError` message raised on a 404 (lines 75-78). -/
def notFoundMessage (date : String) : String :=
  "Dump file not found for date " ++ date ++
    ". Available dates can be checked at: https://dumps.wikimedia.org/enwiki/"

/-- `download_dump` (lines 41-80) with the filesystem/network interaction
abstracted into `outcome`: an existing local file or a successful retrieval
returns the dump path; `HTTPError` with code 404 becomes the dedicated
not-found error; any other `HTTPError` is re-raised as is; a non-HTTP
exception propagates unchanged. -/
def download_dump (date : String) (outcome : DownloadOutcome) :
    Except DownloadError String :=
  match outcome with
  | .localExists => .ok (dump_filename date)
  | .success => .ok (dump_filename date)
  | .httpError code =>
      if code = 404 then .error (.notFound (notFoundMessage date))
      else .error (.httpFailure code)
  | .otherFailure msg => .error (.ioFailure msg)

/-- Whether a `download_dump` result is the dedicated not-found error. -/
def isNotFound : Except DownloadError String → Bool
  | .error (.notFound _) => true
  | _ => false

lemma containsSub_append_right (pat l1 l2 : List Char)
    (h : containsSub pat l2 = true) : containsSub pat (l1 ++ l2) = true := by
  induction l1 with
  | nil => simpa using h
  | cons c cs ih =>
    simp only [List.cons_append, containsSub] at ih ⊢
    rw [findIdx?]
    by_cases hp : isPrefixL pat (c :: (cs ++ l2)) = true
    · simp [hp]
    · rw [if_neg hp]
      simpa using ih

/-- C8: an HTTP 404 on download makes `download_dump` fail with the
dedicated not-found error whose message carries the guidance to check
available dates; any other HTTP failure or other exception is propagated
as a different error; and this not-found error arises only from a 404, so
a successful run never produces it. -/
theorem c8_download_404_distinguished (date : String) :
    download_dump date (.httpError 404) =
      .error (.notFound (notFoundMessage date)) ∧
    containsSub
      "Available dates can be checked at: https://dumps.wikimedia.org/enwiki/".toList
      (notFoundMessage date).toList = true ∧
    (∀ code, code ≠ 404 →
      download_dump date (.httpError code) = .error (.httpFailure code)) ∧
    (∀ msg, download_dump date (.otherFailure msg) =
      .error (.ioFailure msg)) ∧
    (∀ o, isNotFound (download_dump date o) = true → o = .httpError 404) := by
  refine ⟨rfl, ?_, ?_, fun _ => rfl, ?_⟩
  · have hdata : (notFoundMessage date).toList =
        "Dump file not found for date ".toList ++ (date.toList ++
          ". Available dates can be checked at: https://dumps.wikimedia.org/enwiki/".toList) := by
      simp [notFoundMessage, String.toList, String.data_append]
    rw [hdata]
    apply containsSub_append_right
    apply containsSub_append_right
    decide
  · intro code hc
    simp [download_dump, hc]
  · intro o ho
    cases o with
    | localExists => simp [download_dump, isNotFound] at ho
    | success => simp [download_dump, isNotFound] at ho
    | httpError code =>
      by_cases hc : code = 404
      · rw [hc]
      · simp [download_dump, hc, isNotFound] at ho
    | otherFailure msg => simp [download_dump, isNotFound] at ho

/-- Concrete instances of `c8_download_404_distinguished` for the date
"20240501": the non-404 propagation at HTTP 500, and the not-found error
only arising from a 404. -/
theorem c8_witness :
    download_dump "20240501" (.httpError 500) =
      .error (.httpFailure 500) ∧
    download_dump "20240501" (.httpError 404) =
      .error (.notFound (notFoundMessage "20240501")) := by
  refine ⟨?_, (c8_download_404_distinguished "20240501").1⟩
  exact (c8_download_404_distinguished "20240501").2.2.1 500 (by decide)
